import Mathlib

/-!
Verification of the psitabs browser-tab organizer core.

This file gives a shallow embedding of the duplicate-detection engine
(`DuplicateDetector`), the group reconciler (`GroupManager`) and the LLM
response handling (`LLMService`) of the repository, and proves the testable
properties stated in the specification about them.

Conventions of the embedding:
* JavaScript truthiness of optional numbers / strings is modelled explicitly
  (`jsTruthyId`, `jsTruthyStr`): `undefined`, `0` and `""` are falsy.
* The WHATWG `URL` / `URLSearchParams` platform built-ins (external
  collaborators of the repository) are modelled for hierarchical
  `scheme://host[:port]path[?query]` URLs over plain (non-percent-escaped,
  BMP) characters, which covers every URL the properties mention; a string
  outside that fragment fails to parse, matching the `catch` fallback of
  `normalizeUrl`.  The parser lowercases scheme and host and drops the
  default port for http/https, as the platform parser does.
* Asynchronous chrome API calls are modelled as pure state transformers over
  a browser-state snapshot (`BState`); a rejected promise is an
  `Except.error`.
* The LLM transport is an oracle parameter `llm : String → Except String
  String`, exactly the "opaque text-completion call" of the specification.
-/

namespace PsiTabs

/-! ### JavaScript value helpers -/

/-- Truthiness of an optional numeric id in JavaScript: `undefined` and `0` are falsy. -/
def jsTruthyId : Option Nat → Bool
  | none => false
  | some n => n != 0

/-- Truthiness of an optional string in JavaScript: `undefined` and `""` are falsy. -/
def jsTruthyStr : Option String → Bool
  | none => false
  | some s => s != ""

/-- Digit character test. -/
def isDigitChar (c : Char) : Bool := '0' ≤ c && c ≤ '9'

/-- ASCII letter test. -/
def isAlphaChar (c : Char) : Bool := ('a' ≤ c && c ≤ 'z') || ('A' ≤ c && c ≤ 'Z')

/-- ASCII lower-casing of one character (the fragment of `toLowerCase` we need). -/
def toLowerChar (c : Char) : Char :=
  if 'A' ≤ c && c ≤ 'Z' then Char.ofNat (c.toNat + 32) else c

/-- Value of a list of decimal digit characters. -/
def digitsVal (l : List Char) : Nat :=
  l.foldl (fun a c => a * 10 + (c.toNat - 48)) 0

/-- Boolean test that the first list starts the second one. -/
def leadsWith : List Char → List Char → Bool
  | [], _ => true
  | _ :: _, [] => false
  | p :: ps, c :: cs => p == c && leadsWith ps cs

/-- JavaScript `u.startsWith(p)`, computed on the character lists. -/
def strStarts (u p : String) : Bool := leadsWith p.data u.data

/-! ### URL normalizer (`DuplicateDetector.normalizeUrl`)

The structured result of the platform `new URL(...)` parse, restricted to the
fields the source reads: `protocol`, `hostname`, `port`, `pathname`,
`search`. -/

structure ParsedUrl where
  scheme : String
  host : String
  port : Option Nat
  path : String
  search : String
  deriving Repr, DecidableEq

/-- ASCII lower-case letter test. -/
def isLowerChar (c : Char) : Bool := 'a' ≤ c && c ≤ 'z'

/-- Characters allowed in a URL scheme.  The platform parser lower-cases the
scheme; the model restricts the fragment to schemes already spelt in lower
case (an upper-case spelling falls back like any other unparsed URL). -/
def isSchemeChar (c : Char) : Bool :=
  isLowerChar c || isDigitChar c || c == '+' || c == '-' || c == '.'

/-- Model of the platform parse of the authority part: `host[:port]`, with the
host lowercased and the default http/https port dropped, as `new URL` does.
Userinfo and IPv6 brackets are outside the modelled fragment. -/
def parseAuthority (auth : List Char) (scheme : List Char) : Option (List Char × Option Nat) :=
  if auth.contains '@' || auth.contains '[' then none
  else
    let host := auth.takeWhile (fun c => c != ':')
    let rest := auth.drop host.length
    if host.isEmpty then none
    else
      match rest with
      | [] => some (host.map toLowerChar, none)
      | _ :: portChars =>
        if portChars.isEmpty || portChars.any (fun c => !isDigitChar c) then none
        else
          let n := digitsVal portChars
          if (scheme == "http".data && n == 80) || (scheme == "https".data && n == 443) then
            some (host.map toLowerChar, none)
          else some (host.map toLowerChar, some n)

/-- Model of `new URL(url)` on the character list of the url. -/
def parseUrlChars (l : List Char) : Option ParsedUrl :=
  match l.takeWhile isSchemeChar with
  | [] => none
  | c0 :: cs =>
    if !isLowerChar c0 then none
    else
      match l.drop (c0 :: cs).length with
      | ':' :: '/' :: '/' :: rest =>
        match parseAuthority (rest.takeWhile (fun c => c != '/' && c != '?' && c != '#'))
            (c0 :: cs) with
        | none => none
        | some (host, port) =>
          let rest2 := rest.drop (rest.takeWhile (fun c => c != '/' && c != '?' && c != '#')).length
          let pathChars := rest2.takeWhile (fun c => c != '?' && c != '#')
          let path := if pathChars.isEmpty then ['/'] else pathChars
          let rest3 := rest2.drop pathChars.length
          let search :=
            match rest3 with
            | '?' :: qs => qs.takeWhile (fun c => c != '#')
            | _ => []
          some { scheme := String.mk (c0 :: cs), host := String.mk host,
                 port := port, path := String.mk path, search := String.mk search }
      | _ => none

/-- Model of `new URL(url)`; `none` models the constructor throwing. -/
def parseUrl (u : String) : Option ParsedUrl := parseUrlChars u.data

/-- The `application/x-www-form-urlencoded` decode of one token, restricted to
the plus-to-space rule (percent escapes are outside the modelled fragment). -/
def formDecode (l : List Char) : String :=
  String.mk (l.map fun c => if c == '+' then ' ' else c)

/-- The matching encode used by `URLSearchParams.toString`. -/
def formEncode (s : String) : List Char :=
  s.data.map fun c => if c == ' ' then '+' else c

/-- Split a query string on ampersands. -/
def splitAmp : List Char → List (List Char)
  | [] => [[]]
  | c :: rest =>
    match splitAmp rest with
    | [] => [[]]
    | s :: ss => if c == '&' then [] :: s :: ss else (c :: s) :: ss

/-- One `key=value` (or bare `key`) piece of a query string. -/
def paramOfPiece (piece : List Char) : String × String :=
  let k := piece.takeWhile (fun c => c != '=')
  match piece.drop k.length with
  | [] => (formDecode k, "")
  | _ :: v => (formDecode k, formDecode v)

/-- Model of `new URLSearchParams(search).entries()`: pieces between
ampersands, empty pieces ignored, each piece split at its first equals sign. -/
def parseParams (l : List Char) : List (String × String) :=
  ((splitAmp l).filter (fun p => !p.isEmpty)).map paramOfPiece

/-- Key under which JavaScript `Array.prototype.sort()` compares a two-element
entry array: its string conversion `key + "," + value`. -/
def entryString (e : String × String) : String := e.1 ++ "," ++ e.2

/-- Lexicographic comparison of character lists by code point (which agrees
with the JavaScript code-unit comparison on the basic plane). -/
def charListLe : List Char → List Char → Bool
  | [], _ => true
  | _ :: _, [] => false
  | a :: as, b :: bs => if a < b then true else if b < a then false else charListLe as bs

/-- The comparison used by the default sort on entries. -/
def entryLe (a b : String × String) : Prop :=
  charListLe (entryString a).data (entryString b).data = true

instance : DecidableRel entryLe := fun a b =>
  inferInstanceAs (Decidable (charListLe (entryString a).data (entryString b).data = true))

/-- Model of `Array.from(searchParams.entries()).sort()`: a stable sort by the
string conversion of each entry. -/
def sortEntries (l : List (String × String)) : List (String × String) :=
  l.insertionSort entryLe

/-- Model of re-serialization by `URLSearchParams.toString()`. -/
def serializeParams (l : List (String × String)) : List Char :=
  List.intercalate ['&'] (l.map (fun e => formEncode e.1 ++ '=' :: formEncode e.2))

/-- The port segment appended by `normalizeUrl`: kept only when present and
not the default for http/https (mirrors the source condition verbatim). -/
def portSegment (p : ParsedUrl) : List Char :=
  match p.port with
  | none => []
  | some n =>
    if !(p.scheme == "http" && n == 80) && !(p.scheme == "https" && n == 443) then
      ':' :: (toString n).data
    else []

/-- The query segment appended by `normalizeUrl`: present when `urlObj.search`
is truthy, with the entries sorted and re-serialized. -/
def searchSegment (p : ParsedUrl) : List Char :=
  if p.search == "" then []
  else '?' :: serializeParams (sortEntries (parseParams p.search.data))

/-- Everything of the normalized url after the `scheme:` protocol part. -/
def normalizeTail (p : ParsedUrl) : List Char :=
  '/' :: '/' :: (p.host.data.map toLowerChar) ++ portSegment p ++ p.path.data ++ searchSegment p

/-- The normalized url as characters: `protocol + '//' + lowercased host +
port + pathname + sorted query`, the fragment dropped. -/
def normalizeCore (p : ParsedUrl) : List Char :=
  p.scheme.data ++ ':' :: normalizeTail p

/-- `DuplicateDetector.normalizeUrl`: parse, rebuild canonically, and fall
back to the original string when parsing fails. -/
def normalizeUrl (url : String) : String :=
  match parseUrl url with
  | some p => String.mk (normalizeCore p)
  | none => url

/-! ### Duplicate detector (`DuplicateDetector`) -/

/-- The fields of `chrome.tabs.Tab` the duplicate detector reads. -/
structure Tab where
  id : Option Nat
  url : Option String
  deriving Repr, DecidableEq

/-- The url string of a tab, `""` when absent (only read behind truthiness). -/
def urlOf (t : Tab) : String := t.url.getD ""

/-- The numeric key a tab is tracked under in the `assignedTabs` set. -/
def tabIdKey (t : Tab) : Nat := t.id.getD 0

/-- `DuplicateDetector.areTabsDuplicate`, with the URL normalizer abstracted
as a parameter so that the pre-normalization short-circuits are provably
independent of it. -/
def areTabsDuplicateWith (norm : String → String) (tab1 tab2 : Tab) : Bool :=
  if !jsTruthyStr tab1.url || !jsTruthyStr tab2.url then false
  else if strStarts (urlOf tab1) "chrome://" || strStarts (urlOf tab1) "edge://" ||
      strStarts (urlOf tab2) "chrome://" || strStarts (urlOf tab2) "edge://" then false
  else if urlOf tab1 == "about:blank" || urlOf tab2 == "about:blank" ||
      urlOf tab1 == "chrome://newtab/" || urlOf tab2 == "chrome://newtab/" ||
      urlOf tab1 == "edge://newtab/" || urlOf tab2 == "edge://newtab/" then false
  else norm (urlOf tab1) == norm (urlOf tab2)

/-- `DuplicateDetector.areTabsDuplicate` as the source instantiates it. -/
def areTabsDuplicate : Tab → Tab → Bool := areTabsDuplicateWith normalizeUrl

/-- One original tab with its ordered duplicates. -/
structure DuplicateGroup where
  original : Tab
  duplicates : List Tab
  deriving Repr, DecidableEq

/-- The inner loop of `identifyDuplicateGroups`: scan every other unassigned
tab with an id for duplicates of `tab`, marking matches assigned as found.
Returns the duplicates in scan order together with the grown assigned set. -/
def innerScan (tab : Tab) : List Tab → List Nat → List Tab × List Nat
  | [], assigned => ([], assigned)
  | otherTab :: rest, assigned =>
    if !jsTruthyId otherTab.id || otherTab.id == tab.id ||
        assigned.contains (tabIdKey otherTab) then
      innerScan tab rest assigned
    else if areTabsDuplicate tab otherTab then
      let next := innerScan tab rest (tabIdKey otherTab :: assigned)
      (otherTab :: next.1, next.2)
    else innerScan tab rest assigned

/-- The outer loop of `identifyDuplicateGroups`: each unassigned tab with an
id becomes the original of a group exactly when its inner scan found
duplicates, and is then itself marked assigned. -/
def outerScan (allTabs : List Tab) : List Tab → List Nat → List DuplicateGroup
  | [], _ => []
  | tab :: rest, assigned =>
    if !jsTruthyId tab.id || assigned.contains (tabIdKey tab) then
      outerScan allTabs rest assigned
    else
      let scan := innerScan tab allTabs assigned
      if scan.1.length > 0 then
        ⟨tab, scan.1⟩ :: outerScan allTabs rest (tabIdKey tab :: scan.2)
      else outerScan allTabs rest scan.2

/-- `DuplicateDetector.identifyDuplicateGroups`. -/
def identifyDuplicateGroups (tabs : List Tab) : List DuplicateGroup :=
  outerScan tabs tabs []

/-- The duplicate ids of a group. -/
def dupIds (g : DuplicateGroup) : List Nat := g.duplicates.map tabIdKey

/-- All ids of a group, original first. -/
def groupIds (g : DuplicateGroup) : List Nat := tabIdKey g.original :: dupIds g

/-! ### Browser-state model for the group reconciler (`GroupManager`)

Tabs and native tab groups of one browser snapshot; the asynchronous chrome
calls the reconciler makes are modelled as pure state transformers, a
rejected call as `Except.error`. -/

inductive GColor
  | red | blue | yellow | green | pink | purple | cyan | orange | grey
  deriving Repr, DecidableEq

structure BTab where
  id : Nat
  windowId : Nat
  url : String
  title : String
  groupId : Int
  deriving Repr, DecidableEq

structure BGroup where
  id : Nat
  windowId : Nat
  title : String
  color : GColor
  collapsed : Bool
  deriving Repr, DecidableEq

structure BState where
  tabs : List BTab
  groups : List BGroup
  nextGroupId : Nat
  deriving Repr, DecidableEq

/-- `chrome.tabGroups.TAB_GROUP_ID_NONE`. -/
def TAB_GROUP_ID_NONE : Int := -1

/-- Model of `chrome.tabs.get`. -/
def tabsGet (s : BState) (tabId : Nat) : Option BTab :=
  s.tabs.find? (fun t => t.id == tabId)

/-- Model of `chrome.tabs.query({windowId})`. -/
def tabsInWindow (s : BState) (w : Nat) : List BTab :=
  s.tabs.filter (fun t => t.windowId == w)

/-- Model of `chrome.tabGroups.query({windowId})`. -/
def groupsInWindow (s : BState) (w : Nat) : List BGroup :=
  s.groups.filter (fun g => g.windowId == w)

/-- Set the group membership of the listed tabs. -/
def setGroupOfTabs (s : BState) (tabIds : List Nat) (gid : Int) : BState :=
  { s with tabs := s.tabs.map fun t =>
      if tabIds.contains t.id then { t with groupId := gid } else t }

/-- Model of `chrome.tabs.group({tabIds, groupId})`: move tabs into an
existing group; rejects when a tab or the group is gone. -/
def tabsGroupJoin (s : BState) (tabIds : List Nat) (gid : Nat) : Except String BState :=
  if tabIds.all (fun i => (tabsGet s i).isSome) && s.groups.any (fun g => g.id == gid) then
    Except.ok (setGroupOfTabs s tabIds (Int.ofNat gid))
  else Except.error "No tab or group with the given id"

/-- Model of `chrome.tabs.group({tabIds})`: create a fresh native group in
the window of the first tab (default title, default color) and move the
listed tabs into it. -/
def tabsGroupNew (s : BState) (tabIds : List Nat) : Except String (Nat × BState) :=
  match tabIds with
  | [] => Except.error "No tabs given"
  | t0 :: _ =>
    match tabsGet s t0 with
    | none => Except.error "No tab with the given id"
    | some tab0 =>
      if tabIds.all (fun i => (tabsGet s i).isSome) then
        Except.ok (s.nextGroupId,
          { tabs := (setGroupOfTabs s tabIds (Int.ofNat s.nextGroupId)).tabs,
            groups := s.groups ++ [⟨s.nextGroupId, tab0.windowId, "", GColor.grey, false⟩],
            nextGroupId := s.nextGroupId + 1 })
      else Except.error "No tab with the given id"

/-- Model of `chrome.tabGroups.update(groupId, properties)`. -/
def tabGroupsUpdate (s : BState) (gid : Nat) (title : Option String)
    (color : Option GColor) : Except String BState :=
  if s.groups.any (fun g => g.id == gid) then
    Except.ok { s with groups := s.groups.map fun g =>
      if g.id == gid then
        { g with title := title.getD g.title, color := color.getD g.color }
      else g }
  else Except.error "No group with the given id"

/-- `GroupManager.createGroup` (options passed as optional title/color). -/
def createGroup (s : BState) (tabIds : List Nat) (title : Option String)
    (color : Option GColor) : Except String (Nat × BState) :=
  if tabIds.isEmpty then Except.error "No tabs specified for group creation"
  else
    match tabsGroupNew s tabIds with
    | Except.error e => Except.error e
    | Except.ok (gid, s1) =>
      if title.isSome || color.isSome then
        match tabGroupsUpdate s1 gid title color with
        | Except.error e => Except.error e
        | Except.ok s2 => Except.ok (gid, s2)
      else Except.ok (gid, s1)

/-- `GroupManager.addTabsToGroup` (the undefined-id filter of the source is
vacuous here, ids being modelled as plain naturals). -/
def addTabsToGroup (s : BState) (gid : Nat) (tabIds : List Nat) : Except String BState :=
  if tabIds.isEmpty then Except.error "No tabs specified to add to group"
  else tabsGroupJoin s tabIds gid

/-- Strip a leading `www.` from a hostname (`domain.slice(4)`). -/
def stripWww (host : String) : String :=
  if strStarts host "www." then String.mk (host.data.drop 4) else host

/-- `GroupManager.groupTabByDomain`, the random color drawn supplied as an
argument.  `new URL` throwing is the `Except.error` path (rethrown by the
source's catch). -/
def groupTabByDomain (s : BState) (tabId : Nat) (randColor : GColor) :
    Except String (Option Nat × BState) :=
  match tabsGet s tabId with
  | none => Except.error "No tab with the given id"
  | some tab =>
    if tab.groupId != TAB_GROUP_ID_NONE || tab.url == "" ||
        strStarts tab.url "chrome://" || strStarts tab.url "edge://" ||
        tab.url == "about:blank" then
      Except.ok (none, s)
    else
      match parseUrl tab.url with
      | none => Except.error "Invalid URL"
      | some pu =>
        match (groupsInWindow s tab.windowId).find?
            (fun g => g.title == stripWww pu.host) with
        | some g =>
          match addTabsToGroup s g.id [tabId] with
          | Except.error e => Except.error e
          | Except.ok s1 => Except.ok (some g.id, s1)
        | none =>
          match (tabsInWindow s tab.windowId).filter (fun t =>
            if t.url == "" || t.id == tabId || t.groupId != TAB_GROUP_ID_NONE then false
            else
              match parseUrl t.url with
              | none => false
              | some tu => stripWww tu.host == stripWww pu.host) with
          | [] => Except.ok (none, s)
          | sd0 :: sdRest =>
            match createGroup s (tabId :: (sd0 :: sdRest).map (fun t => t.id))
                (some (stripWww pu.host)) (some randColor) with
            | Except.error e => Except.error e
            | Except.ok (gid, s1) => Except.ok (some gid, s1)

/-- Stable insertion of a tab into a list sorted by ascending id. -/
def insertTabById (t : BTab) : List BTab → List BTab
  | [] => [t]
  | u :: rest => if t.id ≤ u.id then t :: u :: rest else u :: insertTabById t rest

/-- Model of the stable `eligibleTabs.sort((a, b) => (a.id||0) - (b.id||0))`. -/
def sortTabsById : List BTab → List BTab
  | [] => []
  | t :: rest => insertTabById t (sortTabsById rest)

/-- The bucket walk of `groupByCreationTime`: a new bucket starts when the id
gap, scaled by 0.1, exceeds the minute threshold times 60; buckets of size
one are dropped.  The arithmetic is modelled over the rationals (exact for
the inputs of interest). -/
def timeWalk (thr : Rat) : BTab → List BTab → List BTab → List (List BTab)
  | prev, revCur, [] =>
    if (prev :: revCur).length > 1 then [(prev :: revCur).reverse] else []
  | prev, revCur, tab :: rest =>
    if ((tab.id : Rat) - (prev.id : Rat)) * (1 / 10) ≤ thr * 60 then
      timeWalk thr tab (prev :: revCur) rest
    else
      (if (prev :: revCur).length > 1 then [(prev :: revCur).reverse] else []) ++
        timeWalk thr tab [] rest

/-- The per-bucket creation loop of `groupByCreationTime` (the title is built
from the bucket index and the formatted timestamp; colors are drawn from the
supplied stream). -/
def createTimeGroups (stamp : String) (colors : Nat → GColor) :
    BState → Nat → List (List BTab) → Except String (List Nat × BState)
  | s, _, [] => Except.ok ([], s)
  | s, i, bucket :: rest =>
    if bucket.length ≤ 1 then createTimeGroups stamp colors s (i + 1) rest
    else
      match createGroup s (bucket.map (fun t => t.id))
          (some ("Group " ++ toString (i + 1) ++ " (" ++ stamp ++ ")"))
          (some (colors i)) with
      | Except.error e => Except.error e
      | Except.ok (gid, s1) =>
        match createTimeGroups stamp colors s1 (i + 1) rest with
        | Except.error e => Except.error e
        | Except.ok (gids, s2) => Except.ok (gid :: gids, s2)

/-- `GroupManager.groupByCreationTime` over the window `w`. -/
def groupByCreationTime (s : BState) (w : Nat) (timeWindowInMinutes : Rat)
    (stamp : String) (colors : Nat → GColor) : Except String (List Nat × BState) :=
  let eligibleTabs := (tabsInWindow s w).filter (fun t => t.groupId == TAB_GROUP_ID_NONE)
  if eligibleTabs.length ≤ 1 then Except.ok ([], s)
  else
    match sortTabsById eligibleTabs with
    | [] => Except.ok ([], s)
    | t0 :: rest =>
      createTimeGroups stamp colors s 0 (timeWalk timeWindowInMinutes t0 [] rest)

/-! ### LLM service model (`LLMService`)

The transport is an oracle `llm : String → Except String String`; content
extraction is an oracle `content : Nat → Except String String`; the
configuration check is a boolean parameter.  Prompt texts are abridged but
built from the same tab fields as the source. -/

structure TabDetail where
  id : Nat
  title : String
  url : String
  content : String
  deriving Repr, DecidableEq

structure TabGroup where
  name : String
  tabIds : List Nat
  deriving Repr, DecidableEq

/-- Whitespace in the sense of JavaScript regex `\s` (ASCII fragment). -/
def isWsChar (c : Char) : Bool := c == ' ' || c == '\n' || c == '\t' || c == '\r'

/-- JavaScript `String.prototype.trim`. -/
def jsTrim (s : String) : String :=
  String.mk (((s.data.dropWhile isWsChar).reverse.dropWhile isWsChar).reverse)

/-- The regex `^[^\n]+` match: the first line. -/
def firstLine (s : String) : String :=
  String.mk (s.data.takeWhile (fun c => c != '\n'))

/-- Lower-casing of a string (ASCII fragment of `toLowerCase`). -/
def jsToLower (s : String) : String := String.mk (s.data.map toLowerChar)

/-- Match of the first split alternative `Group \d+ Name:` at the head of the
text; returns the number of characters consumed. -/
def matchGroupHeading (l : List Char) : Option Nat :=
  if leadsWith "Group ".data l then
    let digits := (l.drop 6).takeWhile isDigitChar
    if digits.isEmpty then none
    else if leadsWith " Name:".data ((l.drop 6).drop digits.length) then
      some (6 + digits.length + 6)
    else none
  else none

/-- Match of the second, line-anchored split alternative `^[A-Za-z]+ Group:`
at the head of the text. -/
def matchWordGroupHeading (l : List Char) : Option Nat :=
  let w := l.takeWhile isAlphaChar
  if w.isEmpty then none
  else if leadsWith " Group:".data (l.drop w.length) then some (w.length + 7)
  else none

/-- The scan of `analysisText.split(/Group \d+ Name:|^[A-Za-z]+ Group:/m)`:
segments between matches, the multiline `^` tracked by a line-start flag.
The fuel argument only bounds the recursion; it is never exhausted when
instantiated with the text length plus one. -/
def splitHeadings : Nat → List Char → Bool → List Char → List String
  | 0, l, _, cur => [String.mk (cur.reverse ++ l)]
  | fuel + 1, l, lineStart, cur =>
    match l with
    | [] => [String.mk cur.reverse]
    | c :: rest =>
      match matchGroupHeading l with
      | some n => String.mk cur.reverse :: splitHeadings fuel (l.drop n) false []
      | none =>
        if lineStart then
          match matchWordGroupHeading l with
          | some n => String.mk cur.reverse :: splitHeadings fuel (l.drop n) false []
          | none => splitHeadings fuel rest (c == '\n') (c :: cur)
        else splitHeadings fuel rest (c == '\n') (c :: cur)

/-- The split of the completion text on group headings. -/
def splitGroups (text : String) : List String :=
  splitHeadings (text.length + 1) text.data true []

/-- The search `/TAG([^\n]+)/`: first position where the literal tag is
followed by at least one non-newline character; returns the capture. -/
def findTagLine (tag : List Char) : Nat → List Char → Option (List Char)
  | 0, _ => none
  | fuel + 1, l =>
    match l with
    | [] => none
    | _ :: rest =>
      if leadsWith tag l then
        let cap := (l.drop tag.length).takeWhile (fun c => c != '\n')
        if cap.isEmpty then findTagLine tag fuel rest else some cap
      else findTagLine tag fuel rest

/-- The fallback search `/Tabs?:([^\n]+)/`. -/
def findTabsTagLine : Nat → List Char → Option (List Char)
  | 0, _ => none
  | fuel + 1, l =>
    match l with
    | [] => none
    | _ :: rest =>
      if leadsWith "Tabs:".data l then
        let cap := (l.drop 5).takeWhile (fun c => c != '\n')
        if cap.isEmpty then findTabsTagLine fuel rest else some cap
      else if leadsWith "Tab:".data l then
        let cap := (l.drop 4).takeWhile (fun c => c != '\n')
        if cap.isEmpty then findTabsTagLine fuel rest else some cap
      else findTabsTagLine fuel rest

/-- All matches of the global regex `/Tab (\d+)/g`, as numbers. -/
def tabNumMatches : Nat → List Char → List Nat
  | 0, _ => []
  | fuel + 1, l =>
    match l with
    | [] => []
    | _ :: rest =>
      if leadsWith "Tab ".data l then
        let digits := (l.drop 4).takeWhile isDigitChar
        if digits.isEmpty then tabNumMatches fuel rest
        else digitsVal digits :: tabNumMatches fuel (l.drop (4 + digits.length))
      else tabNumMatches fuel rest

/-- All matches of the global regex `/\d+/g`, as numbers. -/
def digitRuns : Nat → List Char → List Nat
  | 0, _ => []
  | fuel + 1, l =>
    match l with
    | [] => []
    | c :: rest =>
      if isDigitChar c then
        digitsVal (c :: rest.takeWhile isDigitChar) ::
          digitRuns fuel (rest.dropWhile isDigitChar)
      else digitRuns fuel rest

/-- Substring test, JavaScript `includes`. -/
def containsSub : Nat → List Char → List Char → Bool
  | 0, _, _ => false
  | fuel + 1, needle, l =>
    if leadsWith needle l then true
    else
      match l with
      | [] => false
      | _ :: rest => containsSub fuel needle rest

/-- A separator in the sense of the split regex `[,\s]+`. -/
def isSepChar (c : Char) : Bool := c == ',' || isWsChar c

/-- `tabIdText.split(/[,\s]+/)`: runs of separators cut the string; a leading
run yields a leading empty segment, exactly as in JavaScript. -/
def splitSeps : Nat → List Char → List Char → List String
  | 0, l, cur => [String.mk (cur.reverse ++ l)]
  | fuel + 1, l, cur =>
    match l with
    | [] => [String.mk cur.reverse]
    | c :: rest =>
      if isSepChar c then
        String.mk cur.reverse :: splitSeps fuel (rest.dropWhile isSepChar) []
      else splitSeps fuel rest (c :: cur)

/-- JavaScript `parseInt(s, 10)`: optional sign, leading decimal digits,
`none` for `NaN`. -/
def jsParseInt (s : String) : Option Int :=
  match s.data.dropWhile isWsChar with
  | '-' :: rest =>
    let digits := rest.takeWhile isDigitChar
    if digits.isEmpty then none else some (-(digitsVal digits : Int))
  | '+' :: rest =>
    let digits := rest.takeWhile isDigitChar
    if digits.isEmpty then none else some ((digitsVal digits : Int))
  | l =>
    let digits := l.takeWhile isDigitChar
    if digits.isEmpty then none else some ((digitsVal digits : Int))

/-- The capture of the tab-id line of one section: `Tab IDs:` first, then the
`Tabs?:` fallback. -/
def extractIdText (groupText : String) : Option String :=
  match findTagLine "Tab IDs:".data (groupText.length + 1) groupText.data with
  | some cap => some (String.mk cap)
  | none =>
    match findTabsTagLine (groupText.length + 1) groupText.data with
    | some cap => some (String.mk cap)
    | none => none

/-- The id-list parse of one section: `Tab N` ordinals resolved against the
batch order when present, literal ids filtered against the batch otherwise. -/
def parseIdText (batch : List TabDetail) (tabIdText : String) : List Nat :=
  if !(tabNumMatches (tabIdText.length + 1) tabIdText.data).isEmpty then
    (tabNumMatches (tabIdText.length + 1) tabIdText.data).filterMap fun n =>
      if 0 ≤ (n : Int) - 1 ∧ (n : Int) - 1 < (batch.length : Int) then
        (batch.get? ((n : Int) - 1).toNat).map (fun t => t.id)
      else none
  else
    (splitSeps (tabIdText.length + 1) tabIdText.data []).filterMap fun piece =>
      match jsParseInt piece with
      | none => none
      | some n =>
        if 0 ≤ n ∧ (batch.map (fun t => t.id)).contains n.toNat then some n.toNat
        else none

/-- The name and (batch-filtered) id list of one section of the completion,
before the minimum-size check. -/
def sectionIds (batch : List TabDetail) (seg : String) : Option (String × List Nat) :=
  let groupText := jsTrim seg
  if groupText == "" then none
  else if firstLine groupText == "" then none
  else
    match extractIdText groupText with
    | none => none
    | some cap => some (jsTrim (firstLine groupText), parseIdText batch (jsTrim cap))

/-- One section of the completion: a group exactly when at least two valid
ids remain. -/
def parseSection (batch : List TabDetail) (seg : String) : Option TabGroup :=
  match sectionIds batch seg with
  | none => none
  | some (name, ids) => if ids.length ≥ 2 then some ⟨name, ids⟩ else none

/-- `LLMService._parseGroupAnalysis`. -/
def parseGroupAnalysis (analysisText : String) (tabBatch : List TabDetail) :
    List TabGroup :=
  match splitGroups analysisText with
  | [] => []
  | _ :: segs => segs.filterMap (parseSection tabBatch)

/-- The eligible set of `findSimilarTabs`: ungrouped, non-internal tabs of
the reference tab's window, the reference tab itself excluded. -/
def eligibleSimilarTabs (s : BState) (tabId : Nat) : List BTab :=
  match tabsGet s tabId with
  | none => []
  | some referenceTab =>
    (tabsInWindow s referenceTab.windowId).filter fun tab =>
      tab.id != tabId && tab.groupId == TAB_GROUP_ID_NONE && tab.url != "" &&
      !strStarts tab.url "chrome://" && !strStarts tab.url "edge://" &&
      tab.url != "about:blank"

/-- The similarity prompt (abridged template, built from the same fields). -/
def similarPrompt (referenceTab : BTab) (referenceContent : String)
    (eligible : List BTab) : String :=
  "Reference Tab:\nTitle: " ++ referenceTab.title ++ "\nURL: " ++ referenceTab.url ++
  "\n" ++ referenceContent ++ "\n" ++
  String.join (eligible.map fun tab =>
    "(ID: " ++ toString tab.id ++ "):\nTitle: " ++ tab.title ++ "\nURL: " ++
      tab.url ++ "\n") ++
  "Please respond ONLY with the tab IDs, as a comma-separated list, or none."

/-- The body of `LLMService.findSimilarTabs` up to its enclosing catch. -/
def findSimilarTabsBody (s : BState) (cfg : Bool) (content : Nat → Except String String)
    (llm : String → Except String String) (tabId : Nat) : Except String (List Nat) :=
  if !cfg then Except.error "LLM is not configured"
  else
    match tabsGet s tabId with
    | none => Except.error "No tab with the given id"
    | some referenceTab =>
      if (eligibleSimilarTabs s tabId).isEmpty then Except.ok []
      else
        match (if referenceTab.id != 0 then content referenceTab.id
               else Except.ok "") with
        | Except.error e => Except.error e
        | Except.ok referenceContent =>
          match llm (similarPrompt referenceTab referenceContent
              (eligibleSimilarTabs s tabId)) with
          | Except.error e => Except.error e
          | Except.ok response =>
            if containsSub (response.length + 1) "none".data
                (jsToLower response).data then
              Except.ok []
            else if (digitRuns (response.length + 1) response.data).isEmpty then
              Except.ok []
            else
              Except.ok ((digitRuns (response.length + 1) response.data).filter
                fun i => (eligibleSimilarTabs s tabId).any (fun t => t.id == i))

/-- `LLMService.findSimilarTabs`: the catch converts every failure into an
empty result. -/
def findSimilarTabs (s : BState) (cfg : Bool) (content : Nat → Except String String)
    (llm : String → Except String String) (tabId : Nat) : Except String (List Nat) :=
  match findSimilarTabsBody s cfg content llm tabId with
  | Except.ok ids => Except.ok ids
  | Except.error _ => Except.ok []

/-- The per-tab detail gathering of `suggestTabGroups`: a vanished tab maps
to `null` (dropped), a content failure degrades to empty content. -/
def tabDetailOf (s : BState) (content : Nat → Except String String) (tabId : Nat) :
    Option TabDetail :=
  match tabsGet s tabId with
  | none => none
  | some tab =>
    some ⟨tab.id, (if tab.title == "" then "Untitled" else tab.title), tab.url,
      (match content tabId with
       | Except.ok c => String.mk (c.data.take 1000)
       | Except.error _ => "")⟩

/-- Batching into chunks of at most `n` tabs. -/
def chunksOf (n : Nat) : Nat → List TabDetail → List (List TabDetail)
  | 0, _ => []
  | fuel + 1, l => if l.isEmpty then [] else l.take n :: chunksOf n fuel (l.drop n)

/-- The topic-suggestion prompt of one batch (abridged template). -/
def groupPrompt (batch : List TabDetail) : String :=
  "Analyze these browser tabs and suggest how they should be grouped:\n" ++
  String.join (batch.map fun tab =>
    "(ID: " ++ toString tab.id ++ "):\nTitle: " ++ tab.title ++ "\nURL: " ++
      tab.url ++ "\nContent preview: " ++ tab.content ++ "\n") ++
  "Provide your response in this format:\nGroup 1 Name: ..."

/-- `LLMService.suggestTabGroups`: the per-batch catch swallows LLM failures
(the batch is skipped), while pre-call failures are rethrown by the outer
catch. -/
def suggestTabGroups (s : BState) (cfg : Bool) (content : Nat → Except String String)
    (llm : String → Except String String) (tabIds : List Nat) :
    Except String (List TabGroup) :=
  if !cfg then Except.error "LLM is not configured"
  else
    match tabIds.filterMap (tabDetailOf s content) with
    | [] => Except.error "No valid tabs to analyze"
    | d0 :: dRest =>
      Except.ok (List.flatten ((chunksOf 10 ((d0 :: dRest).length + 1) (d0 :: dRest)).map
        fun batch =>
          match llm (groupPrompt batch) with
          | Except.error _ => []
          | Except.ok analysis => parseGroupAnalysis analysis batch))

/-- `GroupManager.groupSimilarTabs`, the random color supplied as an
argument. -/
def groupSimilarTabs (s : BState) (cfg : Bool) (content : Nat → Except String String)
    (llm : String → Except String String) (referenceTabId : Nat) (randColor : GColor) :
    Except String (Option Nat × BState) :=
  match tabsGet s referenceTabId with
  | none => Except.error "No tab with the given id"
  | some tab =>
    if tab.url == "" || strStarts tab.url "chrome://" || strStarts tab.url "edge://" ||
        tab.url == "about:blank" then
      Except.ok (none, s)
    else
      match findSimilarTabs s cfg content llm referenceTabId with
      | Except.error e => Except.error e
      | Except.ok ids0 =>
        match (if ids0.contains referenceTabId then ids0 else referenceTabId :: ids0) with
        | [] => Except.ok (none, s)
        | [_] => Except.ok (none, s)
        | i0 :: i1 :: iRest =>
          match parseUrl tab.url with
          | none => Except.error "Invalid URL"
          | some pu =>
            match createGroup s (i0 :: i1 :: iRest) (some (stripWww pu.host))
                (some randColor) with
            | Except.error e => Except.error e
            | Except.ok (gid, s1) => Except.ok (some gid, s1)

/-! ### Concrete demonstration inputs used by witnesses -/

/-- Ungrouped tabs with the given ids in window 7. -/
def demoTimeTabs (ids : List Nat) : List BTab :=
  ids.map (fun i => ⟨i, 7, "u", "t", -1⟩)

/-- A snapshot holding only the given ungrouped tabs. -/
def demoTimeState (ids : List Nat) : BState := ⟨demoTimeTabs ids, [], 0⟩

/-- Demonstration input for the partitioner invariant. -/
def demoTabs : List Tab :=
  [⟨some 1, some "http://a.com/"⟩, ⟨some 2, some "http://A.com/"⟩,
   ⟨some 3, some "http://b.com/"⟩]

/-- Demonstration browser state for domain regrouping: one ungrouped tab on
an ordinary page, and an existing group in its window already titled with
the page's domain. -/
def demoDomainState : BState :=
  ⟨[⟨1, 7, "http://a.com/x", "T", -1⟩],
   [⟨5, 7, "a.com", GColor.blue, false⟩], 6⟩

/-- A three-tab batch for the topic-suggestion parser. -/
def demoBatch : List TabDetail :=
  [⟨101, "T1", "u1", "c"⟩, ⟨102, "T2", "u2", "c"⟩, ⟨103, "T3", "u3", "c"⟩]

/-- A completion text holding two well-formed `Group N Name:` sections. -/
def demoAnalysisText : String :=
  "Here are groups\nGroup 1 Name: News\nTab IDs: 101, 102\nGroup 2 Name: Work\nTabs: 103, 101\n"

/-- A section whose id list keeps a single valid id once the id `999`
foreign to the batch is discarded. -/
def demoSoloSeg : String := " Solo\nTab IDs: 999, 101\n"

/-- A browser state with two ungrouped ordinary tabs in one window, used to
exercise the similarity-clustering path. -/
def demoSimState : BState :=
  ⟨[⟨1, 7, "http://a.com/", "A", -1⟩, ⟨2, 7, "http://b.com/", "B", -1⟩], [], 0⟩

/-- An LLM oracle answering every similarity prompt with the id list
`2, 99`, the id `99` naming no known tab. -/
def demoLlm : String → Except String String := fun _ => Except.ok "2, 99"

/-! ### Properties of the duplicate comparator -/

/-- A browser-internal system url. -/
def isInternalUrl (u : String) : Bool :=
  strStarts u "chrome://" || strStarts u "edge://"

/-- A blank / new-tab page url. -/
def isBlankPageUrl (u : String) : Bool :=
  u == "about:blank" || u == "chrome://newtab/" || u == "edge://newtab/"

/-- A tab that survives every short-circuit of the comparator. -/
def comparableTab (t : Tab) : Bool :=
  jsTruthyStr t.url && !isInternalUrl (urlOf t) && !isBlankPageUrl (urlOf t)

/-- The comparator in conjunctive normal form: both tabs must be comparable
and then only the normalized urls are compared. -/
theorem areTabsDuplicateWith_eq (norm : String → String) (t1 t2 : Tab) :
    areTabsDuplicateWith norm t1 t2 =
      (comparableTab t1 && comparableTab t2 && (norm (urlOf t1) == norm (urlOf t2))) := by
  unfold areTabsDuplicateWith comparableTab isInternalUrl isBlankPageUrl
  generalize jsTruthyStr t1.url = y1
  generalize jsTruthyStr t2.url = y2
  generalize strStarts (urlOf t1) "chrome://" = c1
  generalize strStarts (urlOf t1) "edge://" = e1
  generalize strStarts (urlOf t2) "chrome://" = c2
  generalize strStarts (urlOf t2) "edge://" = e2
  generalize (urlOf t1 == "about:blank") = a1
  generalize (urlOf t2 == "about:blank") = a2
  generalize (urlOf t1 == "chrome://newtab/") = n1
  generalize (urlOf t2 == "chrome://newtab/") = n2
  generalize (urlOf t1 == "edge://newtab/") = m1
  generalize (urlOf t2 == "edge://newtab/") = m2
  generalize (norm (urlOf t1) == norm (urlOf t2)) = r
  revert y1 y2 c1 e1 c2 e2 a1 a2 n1 n2 m1 m2 r
  decide

/-- A tab whose url is internal or blank is never comparable. -/
theorem comparableTab_false_of (t : Tab) (u : String) (ht : t.url = some u)
    (hu : strStarts u "chrome://" = true ∨ strStarts u "edge://" = true ∨
      u = "about:blank" ∨ u = "chrome://newtab/" ∨ u = "edge://newtab/") :
    comparableTab t = false := by
  rcases hu with h | h | h | h | h <;>
    simp [comparableTab, isInternalUrl, isBlankPageUrl, urlOf, ht, h]

/-- C10: the duplicate comparator is symmetric: `areTabsDuplicate(t1, t2)`
always equals `areTabsDuplicate(t2, t1)`. -/
theorem areTabsDuplicate_symm (t1 t2 : Tab) :
    areTabsDuplicate t1 t2 = areTabsDuplicate t2 t1 := by
  unfold areTabsDuplicate
  rw [areTabsDuplicateWith_eq, areTabsDuplicateWith_eq]
  cases h1 : comparableTab t1 <;> cases h2 : comparableTab t2 <;>
    simp [Bool.beq_comm]

/-- C4: whenever either tab's url is a browser-internal (`chrome://`,
`edge://`) url or a blank/new-tab page, the comparator answers `false` for
every choice of normalization function (so in particular without ever
invoking `normalizeUrl`), even when both urls are identical. -/
theorem areTabsDuplicate_internal_false (norm : String → String) (t1 t2 : Tab) (u : String)
    (hmem : t1.url = some u ∨ t2.url = some u)
    (hu : strStarts u "chrome://" = true ∨ strStarts u "edge://" = true ∨
      u = "about:blank" ∨ u = "chrome://newtab/" ∨ u = "edge://newtab/") :
    areTabsDuplicateWith norm t1 t2 = false := by
  rw [areTabsDuplicateWith_eq]
  rcases hmem with ht | ht
  · rw [comparableTab_false_of t1 u ht hu]; simp
  · rw [comparableTab_false_of t2 u ht hu]; simp

/-- Witness for C4: two tabs with the same internal url are not duplicates,
for an arbitrary normalization (here the identity). -/
theorem areTabsDuplicate_internal_false_witness :
    areTabsDuplicateWith (fun s => s) ⟨some 1, some "chrome://settings"⟩
      ⟨some 2, some "chrome://settings"⟩ = false :=
  areTabsDuplicate_internal_false (fun s => s) _ _ "chrome://settings"
    (Or.inl rfl) (Or.inl (by decide))

/-! ### The partitioner invariant (C1) -/

/-- Distinct tab ids have distinct keys when both are truthy. -/
theorem tabIdKey_ne (t u : Tab) (ht : jsTruthyId t.id = true)
    (hu : jsTruthyId u.id = true) (hne : u.id ≠ t.id) : tabIdKey u ≠ tabIdKey t := by
  cases htid : t.id with
  | none => rw [htid] at ht; simp [jsTruthyId] at ht
  | some m =>
    cases huid : u.id with
    | none => rw [huid] at hu; simp [jsTruthyId] at hu
    | some n =>
      rw [htid] at ht hne; rw [huid] at hu hne
      simp only [jsTruthyId, ne_eq, bne_iff_ne] at ht hu
      simp only [tabIdKey, htid, huid, Option.getD_some]
      exact fun h => hne (by rw [h])

/-- Decompose the negation of a three-way boolean disjunction. -/
theorem or3_false {a b c : Bool} (h : ¬ (a || b || c) = true) :
    a = false ∧ b = false ∧ c = false := by
  cases a <;> cases b <;> cases c <;> simp_all

theorem innerScan_nil (tab : Tab) (a : List Nat) : innerScan tab [] a = ([], a) := rfl

theorem innerScan_cons (tab o : Tab) (rest : List Tab) (a : List Nat) :
    innerScan tab (o :: rest) a =
      if !jsTruthyId o.id || o.id == tab.id || a.contains (tabIdKey o) then
        innerScan tab rest a
      else if areTabsDuplicate tab o then
        ((o :: (innerScan tab rest (tabIdKey o :: a)).1),
          (innerScan tab rest (tabIdKey o :: a)).2)
      else innerScan tab rest a := rfl

/-- Soundness of the inner scan: every reported duplicate has a truthy,
previously unassigned id distinct from the original's, occurs in the scanned
list and is a duplicate of the original. -/
theorem innerScan_fst_spec (tab : Tab) (l : List Tab) : ∀ (a : List Nat),
    ∀ d ∈ (innerScan tab l a).1,
      jsTruthyId d.id = true ∧ tabIdKey d ∉ a ∧ d.id ≠ tab.id ∧ d ∈ l ∧
        areTabsDuplicate tab d = true := by
  induction l with
  | nil => intro a d hd; rw [innerScan_nil] at hd; simp at hd
  | cons o rest ih =>
    intro a d hd
    rw [innerScan_cons] at hd
    by_cases hskip : (!jsTruthyId o.id || o.id == tab.id || a.contains (tabIdKey o)) = true
    · rw [if_pos hskip] at hd
      obtain ⟨h1, h2, h3, h4, h5⟩ := ih a d hd
      exact ⟨h1, h2, h3, List.mem_cons_of_mem _ h4, h5⟩
    · rw [if_neg hskip] at hd
      obtain ⟨h1, h2, h3⟩ := or3_false hskip
      have hty : jsTruthyId o.id = true := by simpa using h1
      have hcon' : tabIdKey o ∉ a := by simp at h3; exact h3
      have hne' : o.id ≠ tab.id := by
        intro hx; rw [hx] at h2; simp at h2
      by_cases hdup : areTabsDuplicate tab o = true
      · rw [if_pos hdup] at hd
        rcases List.mem_cons.mp hd with rfl | hmem
        · exact ⟨hty, hcon', hne', List.mem_cons_self _ _, hdup⟩
        · obtain ⟨h1, h2, h3, h4, h5⟩ := ih (tabIdKey o :: a) d hmem
          exact ⟨h1, fun hx => h2 (List.mem_cons_of_mem _ hx), h3,
            List.mem_cons_of_mem _ h4, h5⟩
      · rw [if_neg hdup] at hd
        obtain ⟨h1, h2, h3, h4, h5⟩ := ih a d hd
        exact ⟨h1, h2, h3, List.mem_cons_of_mem _ h4, h5⟩

/-- The assigned set coming out of the inner scan is, as a set, the incoming
one plus exactly the keys of the reported duplicates. -/
theorem innerScan_mem_snd (tab : Tab) (l : List Tab) : ∀ (a : List Nat) (x : Nat),
    x ∈ (innerScan tab l a).2 ↔ x ∈ a ∨ x ∈ (innerScan tab l a).1.map tabIdKey := by
  induction l with
  | nil => intro a x; rw [innerScan_nil]; simp
  | cons o rest ih =>
    intro a x
    rw [innerScan_cons]
    by_cases hskip : (!jsTruthyId o.id || o.id == tab.id || a.contains (tabIdKey o)) = true
    · rw [if_pos hskip]; exact ih a x
    · rw [if_neg hskip]
      by_cases hdup : areTabsDuplicate tab o = true
      · rw [if_pos hdup]
        have h := ih (tabIdKey o :: a) x
        simp only [List.map_cons, List.mem_cons] at h ⊢
        rw [h]
        tauto
      · rw [if_neg hdup]; exact ih a x

/-- The keys of the reported duplicates are pairwise distinct. -/
theorem innerScan_fst_nodup (tab : Tab) (l : List Tab) : ∀ (a : List Nat),
    ((innerScan tab l a).1.map tabIdKey).Nodup := by
  induction l with
  | nil => intro a; rw [innerScan_nil]; simp
  | cons o rest ih =>
    intro a
    rw [innerScan_cons]
    by_cases hskip : (!jsTruthyId o.id || o.id == tab.id || a.contains (tabIdKey o)) = true
    · rw [if_pos hskip]; exact ih a
    · rw [if_neg hskip]
      by_cases hdup : areTabsDuplicate tab o = true
      · rw [if_pos hdup]
        simp only [List.map_cons, List.nodup_cons]
        refine ⟨?_, ih _⟩
        intro hx
        rcases List.mem_map.mp hx with ⟨d, hd, hkey⟩
        have := (innerScan_fst_spec tab rest (tabIdKey o :: a) d hd).2.1
        exact this (by rw [hkey]; exact List.mem_cons_self _ _)
      · rw [if_neg hdup]; exact ih a

/-- Decompose the negation of a two-way boolean disjunction. -/
theorem or2_false {a b : Bool} (h : ¬ (a || b) = true) : a = false ∧ b = false := by
  cases a <;> cases b <;> simp_all

theorem outerScan_nil (allTabs : List Tab) (a : List Nat) : outerScan allTabs [] a = [] := rfl

theorem outerScan_cons (allTabs : List Tab) (t : Tab) (rest : List Tab) (a : List Nat) :
    outerScan allTabs (t :: rest) a =
      if !jsTruthyId t.id || a.contains (tabIdKey t) then
        outerScan allTabs rest a
      else if (innerScan t allTabs a).1.length > 0 then
        ⟨t, (innerScan t allTabs a).1⟩ ::
          outerScan allTabs rest (tabIdKey t :: (innerScan t allTabs a).2)
      else outerScan allTabs rest (innerScan t allTabs a).2 := rfl

/-- Soundness of the outer scan: every emitted group consists of tabs with
truthy ids, fresh with respect to the incoming assigned set, pairwise
distinct within the group, the original drawn from the remaining tabs, and
the duplicates genuine scan-order duplicates of the original. -/
theorem outerScan_groups (allTabs : List Tab) (l : List Tab) : ∀ (a : List Nat),
    ∀ g ∈ outerScan allTabs l a,
      (∀ i ∈ groupIds g, i ∉ a) ∧ (groupIds g).Nodup ∧
      jsTruthyId g.original.id = true ∧ (∀ d ∈ g.duplicates, jsTruthyId d.id = true) ∧
      g.duplicates ≠ [] ∧ g.original ∈ l ∧
      ∀ d ∈ g.duplicates, d ∈ allTabs ∧ areTabsDuplicate g.original d = true ∧
        d.id ≠ g.original.id := by
  induction l with
  | nil => intro a g hg; rw [outerScan_nil] at hg; simp at hg
  | cons t rest ih =>
    intro a g hg
    rw [outerScan_cons] at hg
    by_cases hskip : (!jsTruthyId t.id || a.contains (tabIdKey t)) = true
    · rw [if_pos hskip] at hg
      obtain ⟨p1, p2, p3, p4, p5, p6, p7⟩ := ih a g hg
      exact ⟨p1, p2, p3, p4, p5, List.mem_cons_of_mem _ p6, p7⟩
    · rw [if_neg hskip] at hg
      obtain ⟨h1, h2⟩ := or2_false hskip
      have hty : jsTruthyId t.id = true := by simpa using h1
      have hcon : tabIdKey t ∉ a := by simp at h2; exact h2
      have hsub : ∀ x ∈ a, x ∈ (innerScan t allTabs a).2 := fun x hx =>
        (innerScan_mem_snd t allTabs a x).mpr (Or.inl hx)
      by_cases hlen : (innerScan t allTabs a).1.length > 0
      · rw [if_pos hlen] at hg
        rcases List.mem_cons.mp hg with rfl | hmem
        · refine ⟨?_, ?_, hty, ?_, ?_, List.mem_cons_self _ _, ?_⟩
          · intro i hi
            rcases List.mem_cons.mp hi with rfl | hi2
            · exact hcon
            · rcases List.mem_map.mp hi2 with ⟨d, hd, rfl⟩
              exact (innerScan_fst_spec t allTabs a d hd).2.1
          · refine List.nodup_cons.mpr ⟨?_, innerScan_fst_nodup t allTabs a⟩
            intro hx
            rcases List.mem_map.mp hx with ⟨d, hd, hkey⟩
            obtain ⟨hdty, _, hdne, _, _⟩ := innerScan_fst_spec t allTabs a d hd
            exact tabIdKey_ne t d hty hdty hdne hkey
          · exact fun d hd => (innerScan_fst_spec t allTabs a d hd).1
          · intro hnil
            rw [show (innerScan t allTabs a).1 = [] from hnil] at hlen
            simp at hlen
          · exact fun d hd =>
              ⟨(innerScan_fst_spec t allTabs a d hd).2.2.2.1,
               (innerScan_fst_spec t allTabs a d hd).2.2.2.2,
               (innerScan_fst_spec t allTabs a d hd).2.2.1⟩
        · obtain ⟨p1, p2, p3, p4, p5, p6, p7⟩ := ih _ g hmem
          refine ⟨?_, p2, p3, p4, p5, List.mem_cons_of_mem _ p6, p7⟩
          intro i hi hia
          exact p1 i hi (List.mem_cons_of_mem _ (hsub i hia))
      · rw [if_neg hlen] at hg
        obtain ⟨p1, p2, p3, p4, p5, p6, p7⟩ := ih _ g hg
        refine ⟨?_, p2, p3, p4, p5, List.mem_cons_of_mem _ p6, p7⟩
        intro i hi hia
        exact p1 i hi (hsub i hia)

/-- The groups emitted by the outer scan have pairwise disjoint id sets. -/
theorem outerScan_pairwise (allTabs : List Tab) (l : List Tab) : ∀ (a : List Nat),
    (outerScan allTabs l a).Pairwise fun g1 g2 => ∀ i ∈ groupIds g1, i ∉ groupIds g2 := by
  induction l with
  | nil => intro a; rw [outerScan_nil]; exact List.Pairwise.nil
  | cons t rest ih =>
    intro a
    rw [outerScan_cons]
    by_cases hskip : (!jsTruthyId t.id || a.contains (tabIdKey t)) = true
    · rw [if_pos hskip]; exact ih a
    · rw [if_neg hskip]
      by_cases hlen : (innerScan t allTabs a).1.length > 0
      · rw [if_pos hlen]
        refine List.pairwise_cons.mpr ⟨?_, ih _⟩
        intro g hg i hi hig
        have hmem : i ∈ tabIdKey t :: (innerScan t allTabs a).2 := by
          rcases List.mem_cons.mp hi with rfl | hi2
          · exact List.mem_cons_self _ _
          · exact List.mem_cons_of_mem _
              ((innerScan_mem_snd t allTabs a i).mpr (Or.inr hi2))
        exact (outerScan_groups allTabs rest _ g hg).1 i hig hmem
      · rw [if_neg hlen]; exact ih _

/-- A truthy id is present. -/
theorem truthy_ne_none {i : Option Nat} (h : jsTruthyId i = true) : i ≠ none := by
  cases i with
  | none => simp [jsTruthyId] at h
  | some n => simp

/-- C1: in the output of `identifyDuplicateGroups`, the duplicate id sets of
distinct groups are pairwise disjoint (indeed all ids occurring anywhere in
the output, originals included, are pairwise distinct), and a tab without an
id never appears in any group, neither as original nor as duplicate. -/
theorem identifyDuplicateGroups_disjoint (tabs : List Tab) :
    ((identifyDuplicateGroups tabs).Pairwise fun g1 g2 => ∀ i ∈ dupIds g1, i ∉ dupIds g2)
    ∧ ((identifyDuplicateGroups tabs).Pairwise fun g1 g2 =>
        ∀ i ∈ groupIds g1, i ∉ groupIds g2)
    ∧ ∀ g ∈ identifyDuplicateGroups tabs,
        (groupIds g).Nodup ∧ g.original.id ≠ none ∧ ∀ d ∈ g.duplicates, d.id ≠ none := by
  refine ⟨?_, outerScan_pairwise tabs tabs [], ?_⟩
  · refine (outerScan_pairwise tabs tabs []).imp ?_
    intro g1 g2 hdisj i hi hic
    exact hdisj i (List.mem_cons_of_mem _ hi) (List.mem_cons_of_mem _ hic)
  · intro g hg
    obtain ⟨_, p2, p3, p4, _, _, _⟩ := outerScan_groups tabs tabs [] g hg
    exact ⟨p2, truthy_ne_none p3, fun d hd => truthy_ne_none (p4 d hd)⟩

/-- Witness for C1 at a concrete input: the group the scan finds there has
pairwise distinct ids and an original with an id. -/
theorem identifyDuplicateGroups_disjoint_witness :
    (groupIds ⟨⟨some 1, some "http://a.com/"⟩, [⟨some 2, some "http://A.com/"⟩]⟩).Nodup ∧
      (some 1 : Option Nat) ≠ none :=
  have h := (identifyDuplicateGroups_disjoint demoTabs).2.2
    ⟨⟨some 1, some "http://a.com/"⟩, [⟨some 2, some "http://A.com/"⟩]⟩ (by decide)
  ⟨h.1, h.2.1⟩

/-! ### The URL normalizer (C2) -/

theorem charListLe_nil (b : List Char) : charListLe [] b = true := rfl

theorem charListLe_cons (a b : Char) (as bs : List Char) :
    charListLe (a :: as) (b :: bs) =
      if a < b then true else if b < a then false else charListLe as bs := rfl

theorem charListLe_cons_nil (a : Char) (as : List Char) :
    charListLe (a :: as) [] = false := rfl

theorem charListLe_total : ∀ a b : List Char, charListLe a b = true ∨ charListLe b a = true := by
  intro a
  induction a with
  | nil => intro b; exact Or.inl (charListLe_nil b)
  | cons x as ih =>
    intro b
    cases b with
    | nil => exact Or.inr (charListLe_nil _)
    | cons y bs =>
      rcases lt_trichotomy x y with h | h | h
      · left; rw [charListLe_cons, if_pos h]
      · subst h
        rw [charListLe_cons, charListLe_cons, if_neg (lt_irrefl x), if_neg (lt_irrefl x),
          if_neg (lt_irrefl x), if_neg (lt_irrefl x)]
        exact ih bs
      · right; rw [charListLe_cons, if_pos h]

theorem charListLe_trans : ∀ a b c : List Char,
    charListLe a b = true → charListLe b c = true → charListLe a c = true := by
  intro a
  induction a with
  | nil => intro b c _ _; exact charListLe_nil c
  | cons x as ih =>
    intro b c h1 h2
    cases b with
    | nil => rw [charListLe_cons_nil] at h1; exact absurd h1 (by simp)
    | cons y bs =>
      cases c with
      | nil => rw [charListLe_cons_nil] at h2; exact absurd h2 (by simp)
      | cons z cs =>
        rw [charListLe_cons] at h1 h2 ⊢
        rcases lt_trichotomy x y with hxy | hxy | hxy
        · rcases lt_trichotomy y z with hyz | hyz | hyz
          · rw [if_pos (lt_trans hxy hyz)]
          · subst hyz; rw [if_pos hxy]
          · rw [if_neg (lt_asymm hyz), if_pos hyz] at h2; exact absurd h2 (by simp)
        · subst hxy
          rcases lt_trichotomy x z with hyz | hyz | hyz
          · rw [if_pos hyz]
          · subst hyz
            rw [if_neg (lt_irrefl x), if_neg (lt_irrefl x)] at h1 h2 ⊢
            exact ih bs cs h1 h2
          · rw [if_neg (lt_asymm hyz), if_pos hyz] at h2; exact absurd h2 (by simp)
        · rw [if_neg (lt_asymm hxy), if_pos hxy] at h1; exact absurd h1 (by simp)

theorem charListLe_antisymm : ∀ a b : List Char,
    charListLe a b = true → charListLe b a = true → a = b := by
  intro a
  induction a with
  | nil =>
    intro b h1 h2
    cases b with
    | nil => rfl
    | cons y bs => rw [charListLe_cons_nil] at h2; exact absurd h2 (by simp)
  | cons x as ih =>
    intro b h1 h2
    cases b with
    | nil => rw [charListLe_cons_nil] at h1; exact absurd h1 (by simp)
    | cons y bs =>
      rw [charListLe_cons] at h1 h2
      rcases lt_trichotomy x y with hxy | hxy | hxy
      · rw [if_neg (lt_asymm hxy), if_pos hxy] at h2; exact absurd h2 (by simp)
      · subst hxy
        rw [if_neg (lt_irrefl x), if_neg (lt_irrefl x)] at h1 h2
        rw [ih bs h1 h2]
      · rw [if_neg (lt_asymm hxy), if_pos hxy] at h1; exact absurd h1 (by simp)

instance : IsTotal (String × String) entryLe :=
  ⟨fun a b => charListLe_total (entryString a).data (entryString b).data⟩

instance : IsTrans (String × String) entryLe :=
  ⟨fun _ _ _ h1 h2 => charListLe_trans _ _ _ h1 h2⟩

/-- Character-list equality of strings is equality. -/
theorem stringDataEq {s t : String} (h : s.data = t.data) : s = t := by
  cases s; cases t; exact congrArg String.mk h

theorem entryLe_refl (x : String × String) : entryLe x x := by
  rcases charListLe_total (entryString x).data (entryString x).data with h | h <;> exact h

/-- Two sorted lists that are permutations of each other are equal, provided
the sort key is injective on their elements. -/
theorem eq_of_perm_of_sorted_entry : ∀ {l1 l2 : List (String × String)},
    l1.Perm l2 → l1.Sorted entryLe → l2.Sorted entryLe →
    (∀ a ∈ l1, ∀ b ∈ l1, entryString a = entryString b → a = b) → l1 = l2 := by
  intro l1
  induction l1 with
  | nil => intro l2 hp _ _ _; exact (List.Perm.eq_nil hp.symm).symm
  | cons a t1 ih =>
    intro l2 hp hs1 hs2 hinj
    cases l2 with
    | nil => exact absurd (List.Perm.eq_nil hp) (by simp)
    | cons b t2 =>
      have ha2 : a ∈ b :: t2 := hp.mem_iff.mp (List.mem_cons_self a t1)
      have hb1 : b ∈ a :: t1 := hp.mem_iff.mpr (List.mem_cons_self b t2)
      have hab : entryLe a b := by
        rcases List.mem_cons.mp hb1 with rfl | hb
        · exact entryLe_refl _
        · exact List.rel_of_sorted_cons hs1 b hb
      have hba : entryLe b a := by
        rcases List.mem_cons.mp ha2 with rfl | ha
        · exact entryLe_refl _
        · exact List.rel_of_sorted_cons hs2 a ha
      have hkey : entryString a = entryString b :=
        stringDataEq (charListLe_antisymm _ _ hab hba)
      have heq : a = b := by
        rcases List.mem_cons.mp hb1 with rfl | hb
        · rfl
        · exact hinj a (List.mem_cons_self _ _) b (List.mem_cons_of_mem _ hb) hkey
      subst heq
      have hp2 : t1.Perm t2 := hp.cons_inv
      have := ih hp2 hs1.of_cons hs2.of_cons
        (fun x hx y hy hk =>
          hinj x (List.mem_cons_of_mem _ hx) y (List.mem_cons_of_mem _ hy) hk)
      rw [this]

/-- Sorting is invariant under permutation of the input, provided the sort
key is injective on the elements present. -/
theorem sortEntries_eq_of_perm {l1 l2 : List (String × String)} (hp : l1.Perm l2)
    (hinj : ∀ a ∈ l1, ∀ b ∈ l1, entryString a = entryString b → a = b) :
    sortEntries l1 = sortEntries l2 := by
  apply eq_of_perm_of_sorted_entry
  · exact (List.perm_insertionSort entryLe l1).trans
      (hp.trans (List.perm_insertionSort entryLe l2).symm)
  · exact List.sorted_insertionSort entryLe l1
  · exact List.sorted_insertionSort entryLe l2
  · intro a ha b hb
    exact hinj a ((List.mem_insertionSort entryLe).mp ha)
      b ((List.mem_insertionSort entryLe).mp hb)

theorem normalizeUrl_of_parse {u : String} {p : ParsedUrl} (h : parseUrl u = some p) :
    normalizeUrl u = String.mk (normalizeCore p) := by
  unfold normalizeUrl; rw [h]

/-- The scheme produced by the parser never contains a colon. -/
theorem parseUrl_scheme_colon {u : String} {p : ParsedUrl} (h : parseUrl u = some p) :
    ':' ∉ p.scheme.data := by
  unfold parseUrl parseUrlChars at h
  split at h
  · simp at h
  · rename_i c0 cs hsch
    split at h
    · simp at h
    · split at h
      · split at h
        · simp at h
        · simp only [Option.some_inj] at h
          subst h
          intro hc
          have hc2 : ':' ∈ u.data.takeWhile isSchemeChar := by
            rw [hsch]; exact hc
          have := List.mem_takeWhile_imp hc2
          simp [isSchemeChar, isLowerChar, isDigitChar] at this
      · simp at h

/-- Appending after a separating colon is injective when neither front part
contains a colon. -/
theorem colon_split : ∀ {a b r1 r2 : List Char}, ':' ∉ a → ':' ∉ b →
    a ++ ':' :: r1 = b ++ ':' :: r2 → a = b ∧ r1 = r2 := by
  intro a
  induction a with
  | nil =>
    intro b r1 r2 _ hb h
    cases b with
    | nil => simpa using h
    | cons y ys =>
      injection h with h1 h2
      exact absurd (h1 ▸ List.mem_cons_self ':' ys) hb
  | cons x xs ih =>
    intro b r1 r2 ha hb h
    cases b with
    | nil =>
      injection h with h1 h2
      exact absurd (h1 ▸ List.mem_cons_self ':' xs) ha
    | cons y ys =>
      injection h with h1 h2
      have := ih (fun hx => ha (List.mem_cons_of_mem _ hx))
        (fun hx => hb (List.mem_cons_of_mem _ hx)) h2
      exact ⟨by rw [h1, this.1], this.2⟩

/-- Equality of the normalized cores under the "differ only in query order"
hypotheses. -/
theorem normalizeCore_congr {p1 p2 : ParsedUrl}
    (hs : p1.scheme = p2.scheme) (hh : p1.host = p2.host) (hp : p1.port = p2.port)
    (hpath : p1.path = p2.path) (hse : p1.search = "" ↔ p2.search = "")
    (hq : (parseParams p1.search.data).Perm (parseParams p2.search.data))
    (hinj : ∀ a ∈ parseParams p1.search.data, ∀ b ∈ parseParams p1.search.data,
      entryString a = entryString b → a = b) :
    normalizeCore p1 = normalizeCore p2 := by
  have hss : searchSegment p1 = searchSegment p2 := by
    unfold searchSegment
    by_cases h1 : p1.search = ""
    · have h2 : p2.search = "" := hse.mp h1
      simp [h1, h2]
    · have h2 : ¬ p2.search = "" := fun hx => h1 (hse.mpr hx)
      simp only [beq_iff_eq, h1, h2, if_neg]
      rw [sortEntries_eq_of_perm hq hinj]
  unfold normalizeCore normalizeTail portSegment
  rw [hs, hh, hp, hpath, hss]

/-- A tab that duplicates nothing else in the scanned list (tabs sharing its
id are skipped by the scan itself) contributes nothing to the inner scan and
leaves the assigned set untouched. -/
theorem innerScan_all_false (t : Tab) : ∀ (l : List Tab) (a : List Nat),
    (∀ u ∈ l, u.id = t.id ∨ areTabsDuplicate t u = false) → innerScan t l a = ([], a) := by
  intro l
  induction l with
  | nil => intro a _; rfl
  | cons o rest ih =>
    intro a h
    have hrest : ∀ u ∈ rest, u.id = t.id ∨ areTabsDuplicate t u = false :=
      fun u hu => h u (List.mem_cons_of_mem _ hu)
    rw [innerScan_cons]
    by_cases hskip : (!jsTruthyId o.id || o.id == t.id || a.contains (tabIdKey o)) = true
    · rw [if_pos hskip]; exact ih a hrest
    · obtain ⟨_, hne, _⟩ := or3_false hskip
      have hno : areTabsDuplicate t o = false := by
        rcases h o (List.mem_cons_self _ _) with h1 | h1
        · rw [h1] at hne; simp at hne
        · exact h1
      rw [if_neg hskip, if_neg (by simp [hno])]; exact ih a hrest

/-- The inner scan distributes over list append, threading the assigned set. -/
theorem innerScan_append (t : Tab) : ∀ (l l2 : List Tab) (a : List Nat),
    innerScan t (l ++ l2) a =
      ((innerScan t l a).1 ++ (innerScan t l2 (innerScan t l a).2).1,
        (innerScan t l2 (innerScan t l a).2).2) := by
  intro l
  induction l with
  | nil => intro l2 a; rfl
  | cons o rest ih =>
    intro l2 a
    rw [List.cons_append, innerScan_cons, innerScan_cons]
    by_cases hskip : (!jsTruthyId o.id || o.id == t.id || a.contains (tabIdKey o)) = true
    · rw [if_pos hskip, if_pos hskip, ih]
    · rw [if_neg hskip, if_neg hskip]
      by_cases hdup : areTabsDuplicate t o = true
      · rw [if_pos hdup, if_pos hdup, ih]
        simp
      · rw [if_neg hdup, if_neg hdup, ih]

/-- A tab that duplicates nothing produces no group and leaves the assigned
set untouched. -/
theorem outerScan_cons_nogroup (allTabs : List Tab) (t : Tab) (rest : List Tab) (a : List Nat)
    (h : ∀ u ∈ allTabs, u.id = t.id ∨ areTabsDuplicate t u = false) :
    outerScan allTabs (t :: rest) a = outerScan allTabs rest a := by
  rw [outerScan_cons]
  by_cases hskip : (!jsTruthyId t.id || a.contains (tabIdKey t)) = true
  · rw [if_pos hskip]
  · rw [if_neg hskip, innerScan_all_false t allTabs a h, if_neg (by simp)]

/-- A block of tabs none of which duplicates anything is walked over without
any effect. -/
theorem outerScan_prefix_nogroup (allTabs : List Tab) : ∀ (l l2 : List Tab) (a : List Nat),
    (∀ t ∈ l, ∀ u ∈ allTabs, u.id = t.id ∨ areTabsDuplicate t u = false) →
    outerScan allTabs (l ++ l2) a = outerScan allTabs l2 a := by
  intro l
  induction l with
  | nil => intro l2 a _; rfl
  | cons o rest ih =>
    intro l2 a h
    rw [List.cons_append,
      outerScan_cons_nogroup allTabs o (rest ++ l2) a (h o (List.mem_cons_self _ _))]
    exact ih l2 a (fun t ht => h t (List.mem_cons_of_mem _ ht))

/-- A list of tabs none of which duplicates anything yields no groups. -/
theorem outerScan_all_nogroup (allTabs : List Tab) : ∀ (l : List Tab) (a : List Nat),
    (∀ t ∈ l, ∀ u ∈ allTabs, u.id = t.id ∨ areTabsDuplicate t u = false) →
    outerScan allTabs l a = [] := by
  intro l
  induction l with
  | nil => intro a _; rfl
  | cons o rest ih =>
    intro a h
    rw [outerScan_cons_nogroup allTabs o rest a (h o (List.mem_cons_self _ _))]
    exact ih a (fun t ht => h t (List.mem_cons_of_mem _ ht))

/-- C3: on an input list holding three mutually duplicate tabs in order
A, B, C (everything else duplicating nothing), the partitioner emits exactly
one group, with the first-encountered tab A as the original and B, C as the
duplicates in input order; and in general a tab that duplicates no other tab
never appears in the output, neither as original nor as duplicate. -/
theorem identifyDuplicateGroups_three (l0 l1 l2 l3 : List Tab) (A B C : Tab)
    (hA : jsTruthyId A.id = true) (hB : jsTruthyId B.id = true)
    (hC : jsTruthyId C.id = true)
    (hBA : B.id ≠ A.id) (hCA : C.id ≠ A.id) (hkeyCB : tabIdKey C ≠ tabIdKey B)
    (hAB : areTabsDuplicate A B = true) (hAC : areTabsDuplicate A C = true)
    (hothers : ∀ t, t ∈ l0 ∨ t ∈ l1 ∨ t ∈ l2 ∨ t ∈ l3 →
      ∀ u ∈ l0 ++ (A :: (l1 ++ (B :: (l2 ++ (C :: l3))))), u.id ≠ t.id →
        areTabsDuplicate t u = false ∧ areTabsDuplicate u t = false) :
    identifyDuplicateGroups (l0 ++ (A :: (l1 ++ (B :: (l2 ++ (C :: l3)))))) =
      [⟨A, [B, C]⟩] := by
  have hAmem : A ∈ l0 ++ (A :: (l1 ++ (B :: (l2 ++ (C :: l3))))) :=
    List.mem_append.mpr (Or.inr (List.mem_cons_self _ _))
  have hblock : ∀ t, t ∈ l0 ∨ t ∈ l1 ∨ t ∈ l2 ∨ t ∈ l3 →
      t.id = A.id ∨ areTabsDuplicate A t = false := by
    intro t ht
    by_cases h : t.id = A.id
    · exact Or.inl h
    · exact Or.inr ((hothers t ht A hAmem (fun hx => h hx.symm)).2)
  have hno0 : ∀ u ∈ l0, u.id = A.id ∨ areTabsDuplicate A u = false :=
    fun u hu => hblock u (Or.inl hu)
  have hno1 : ∀ u ∈ l1, u.id = A.id ∨ areTabsDuplicate A u = false :=
    fun u hu => hblock u (Or.inr (Or.inl hu))
  have hno2 : ∀ u ∈ l2, u.id = A.id ∨ areTabsDuplicate A u = false :=
    fun u hu => hblock u (Or.inr (Or.inr (Or.inl hu)))
  have hno3 : ∀ u ∈ l3, u.id = A.id ∨ areTabsDuplicate A u = false :=
    fun u hu => hblock u (Or.inr (Or.inr (Or.inr hu)))
  have s0 : innerScan A (l2 ++ (C :: l3)) [tabIdKey B] =
      ([C], [tabIdKey C, tabIdKey B]) := by
    rw [innerScan_append, innerScan_all_false A l2 _ hno2, innerScan_cons,
      if_neg (by simp [hC, hCA, hkeyCB]), if_pos hAC,
      innerScan_all_false A l3 _ hno3]
    simp
  have s1 : innerScan A (l1 ++ (B :: (l2 ++ (C :: l3)))) [] =
      ([B, C], [tabIdKey C, tabIdKey B]) := by
    rw [innerScan_append, innerScan_all_false A l1 _ hno1, innerScan_cons,
      if_neg (by simp [hB, hBA]), if_pos hAB]
    rw [show (tabIdKey B :: ([] : List Nat)) = [tabIdKey B] from rfl, s0]
    simp
  have s2 : innerScan A (l0 ++ (A :: (l1 ++ (B :: (l2 ++ (C :: l3)))))) [] =
      ([B, C], [tabIdKey C, tabIdKey B]) := by
    rw [innerScan_append, innerScan_all_false A l0 _ hno0, innerScan_cons,
      if_pos (by simp), s1]
    simp
  have hpre : ∀ (l : List Tab), (∀ t ∈ l, t ∈ l0 ∨ t ∈ l1 ∨ t ∈ l2 ∨ t ∈ l3) →
      ∀ t ∈ l, ∀ u ∈ l0 ++ (A :: (l1 ++ (B :: (l2 ++ (C :: l3))))),
        u.id = t.id ∨ areTabsDuplicate t u = false := by
    intro l hl t ht u hu
    by_cases h : u.id = t.id
    · exact Or.inl h
    · exact Or.inr ((hothers t (hl t ht) u hu h).1)
  unfold identifyDuplicateGroups
  rw [outerScan_prefix_nogroup _ l0 _ [] (hpre l0 (fun t ht => Or.inl ht)),
    outerScan_cons, if_neg (by simp [hA]), s2, if_pos (by simp)]
  rw [outerScan_prefix_nogroup _ l1 _ _ (hpre l1 (fun t ht => Or.inr (Or.inl ht))),
    outerScan_cons, if_pos (by simp),
    outerScan_prefix_nogroup _ l2 _ _ (hpre l2 (fun t ht => Or.inr (Or.inr (Or.inl ht)))),
    outerScan_cons, if_pos (by simp),
    outerScan_all_nogroup _ l3 _ (hpre l3 (fun t ht => Or.inr (Or.inr (Or.inr ht))))]

/-- C3, second half: a tab that duplicates no other tab produces no group
entry at all. -/
theorem identifyDuplicateGroups_singleton_absent (tabs : List Tab) (t : Tab)
    (_ht : t ∈ tabs)
    (hno : ∀ u ∈ tabs, u.id ≠ t.id →
      areTabsDuplicate t u = false ∧ areTabsDuplicate u t = false) :
    ∀ g ∈ identifyDuplicateGroups tabs, g.original ≠ t ∧ t ∉ g.duplicates := by
  intro g hg
  obtain ⟨_, _, _, _, hnil, hmemo, hdups⟩ := outerScan_groups tabs tabs [] g hg
  constructor
  · intro heq
    obtain ⟨d, hd⟩ := List.exists_mem_of_ne_nil _ hnil
    have h1 := (hdups d hd).2.1
    have hne : d.id ≠ t.id := by rw [← heq]; exact (hdups d hd).2.2
    rw [heq] at h1
    have h2 := (hno d (hdups d hd).1 hne).1
    rw [h1] at h2
    exact absurd h2 (by simp)
  · intro hmem
    have h1 := (hdups t hmem).2.1
    have hne : g.original.id ≠ t.id := fun hx => (hdups t hmem).2.2 hx.symm
    have h2 := (hno g.original hmemo hne).2
    rw [h1] at h2
    exact absurd h2 (by simp)

/-- C3: on any input list holding three mutually duplicate tabs in order
A, B, C, everything at the remaining positions duplicating nothing else, the
partitioner outputs exactly one group, with the first-encountered tab A as
the original and duplicates `[B, C]` in input order; and any tab that
duplicates no other tab produces no group entry at all, neither as original
nor as duplicate. -/
theorem identifyDuplicateGroups_three_ordered :
    (∀ (l0 l1 l2 l3 : List Tab) (A B C : Tab),
      jsTruthyId A.id = true → jsTruthyId B.id = true → jsTruthyId C.id = true →
      B.id ≠ A.id → C.id ≠ A.id → tabIdKey C ≠ tabIdKey B →
      areTabsDuplicate A B = true → areTabsDuplicate A C = true →
      (∀ t, t ∈ l0 ∨ t ∈ l1 ∨ t ∈ l2 ∨ t ∈ l3 →
        ∀ u ∈ l0 ++ (A :: (l1 ++ (B :: (l2 ++ (C :: l3))))), u.id ≠ t.id →
          areTabsDuplicate t u = false ∧ areTabsDuplicate u t = false) →
      identifyDuplicateGroups (l0 ++ (A :: (l1 ++ (B :: (l2 ++ (C :: l3)))))) =
        [⟨A, [B, C]⟩])
    ∧ (∀ (tabs : List Tab) (t : Tab), t ∈ tabs →
      (∀ u ∈ tabs, u.id ≠ t.id →
        areTabsDuplicate t u = false ∧ areTabsDuplicate u t = false) →
      ∀ g ∈ identifyDuplicateGroups tabs, g.original ≠ t ∧ t ∉ g.duplicates) :=
  ⟨fun l0 l1 l2 l3 A B C hA hB hC hBA hCA hCB hAB hAC hothers =>
      identifyDuplicateGroups_three l0 l1 l2 l3 A B C hA hB hC hBA hCA hCB hAB hAC hothers,
    fun tabs t ht hno => identifyDuplicateGroups_singleton_absent tabs t ht hno⟩

/-- Witness for C3: three concrete duplicates of one page in order, plus an
unrelated singleton tab, yield exactly the one expected group. -/
theorem identifyDuplicateGroups_three_ordered_witness :
    identifyDuplicateGroups
      [⟨some 1, some "http://a.com/x"⟩, ⟨some 2, some "http://A.com/x"⟩,
       ⟨some 3, some "http://a.com:80/x"⟩, ⟨some 4, some "http://z.org/"⟩] =
      [⟨⟨some 1, some "http://a.com/x"⟩,
        [⟨some 2, some "http://A.com/x"⟩, ⟨some 3, some "http://a.com:80/x"⟩]⟩] :=
  identifyDuplicateGroups_three_ordered.1 [] [] []
    [⟨some 4, some "http://z.org/"⟩]
    ⟨some 1, some "http://a.com/x"⟩ ⟨some 2, some "http://A.com/x"⟩
    ⟨some 3, some "http://a.com:80/x"⟩
    (by decide) (by decide) (by decide) (by decide) (by decide) (by decide)
    (by decide) (by decide)
    (by
      intro t ht
      rcases ht with h | h | h | h
      · simp at h
      · simp at h
      · simp at h
      · rw [List.mem_singleton] at h
        subst h
        decide)

/-! ### The domain reconciler (C5) -/

/-- Mapping tabs by an id-preserving function commutes with lookup by id. -/
theorem find?_id_map (l : List BTab) (tabId : Nat) (f : BTab → BTab)
    (hf : ∀ t, (f t).id = t.id) :
    (l.map f).find? (fun t => t.id == tabId) =
      (l.find? (fun t => t.id == tabId)).map f := by
  induction l with
  | nil => rfl
  | cons t rest ih =>
    simp only [List.map_cons, List.find?_cons, hf t]
    by_cases h : (t.id == tabId) = true
    · simp [h]
    · simp [h, ih]

/-- Lookup after regrouping yields the original tab with the membership
update applied. -/
theorem tabsGet_setGroup (s : BState) (tabIds : List Nat) (gid : Int) (tabId : Nat) :
    tabsGet (setGroupOfTabs s tabIds gid) tabId =
      (tabsGet s tabId).map
        (fun t => if tabIds.contains t.id then { t with groupId := gid } else t) := by
  show (s.tabs.map
      (fun t => if tabIds.contains t.id then { t with groupId := gid } else t)).find?
      (fun t => t.id == tabId) =
    (s.tabs.find? (fun t => t.id == tabId)).map
      (fun t => if tabIds.contains t.id then { t with groupId := gid } else t)
  exact find?_id_map s.tabs tabId
    (fun t => if tabIds.contains t.id then { t with groupId := gid } else t)
    (fun t => by by_cases h : t.id ∈ tabIds <;> simp [h])

/-- Updating a group's properties never touches the tabs. -/
theorem tabGroupsUpdate_tabs {s s2 : BState} {gid : Nat} {title : Option String}
    {color : Option GColor} (h : tabGroupsUpdate s gid title color = Except.ok s2) :
    s2.tabs = s.tabs := by
  unfold tabGroupsUpdate at h
  split at h
  · simp only [Except.ok.injEq] at h; subst h; rfl
  · exact absurd h (by simp)

/-- A freshly created native group id is never the none marker. -/
theorem ofNat_ne_groupNone (n : Nat) : ((Int.ofNat n != TAB_GROUP_ID_NONE) : Bool) = true := by
  simp only [TAB_GROUP_ID_NONE, bne_iff_ne, ne_eq, Int.ofNat_eq_coe]
  omega

/-- First half of C5: a second reconciliation run right after a successful
one finds the tab already grouped (or the state entirely unchanged) and is a
no-op returning null. -/
theorem groupTabByDomain_idem (s : BState) (tabId : Nat) (c1 c2 : GColor)
    (r1 : Option Nat) (s1 : BState)
    (h : groupTabByDomain s tabId c1 = Except.ok (r1, s1)) :
    groupTabByDomain s1 tabId c2 = Except.ok (none, s1) := by
  unfold groupTabByDomain at h
  split at h
  · exact absurd h (by simp)
  · rename_i tab htab
    have hid : tab.id = tabId := by simpa using List.find?_some htab
    split at h
    · rename_i hcond
      simp only [Except.ok.injEq, Prod.mk.injEq] at h
      obtain ⟨hr, hs⟩ := h
      subst hs
      unfold groupTabByDomain
      simp only [htab]
      rw [if_pos hcond]
    · rename_i hcond
      split at h
      · exact absurd h (by simp)
      · rename_i pu hpu
        split at h
        · rename_i g hfind
          split at h
          · exact absurd h (by simp)
          · rename_i s1x hadd
            simp only [Except.ok.injEq, Prod.mk.injEq] at h
            obtain ⟨hr, hs⟩ := h
            subst hs
            unfold addTabsToGroup tabsGroupJoin at hadd
            rw [if_neg (by simp)] at hadd
            split at hadd
            · simp only [Except.ok.injEq] at hadd
              subst hadd
              have hget2 : tabsGet (setGroupOfTabs s [tabId] (Int.ofNat g.id)) tabId =
                  some { tab with groupId := Int.ofNat g.id } := by
                rw [tabsGet_setGroup, htab]
                simp [hid]
              unfold groupTabByDomain
              simp only [hget2]
              rw [if_pos (by
                simp only [Bool.or_eq_true]
                exact Or.inl (Or.inl (Or.inl (Or.inl (ofNat_ne_groupNone g.id)))))]
            · exact absurd hadd (by simp)
        · rename_i hfind
          split at h
          · rename_i hfilter
            simp only [Except.ok.injEq, Prod.mk.injEq] at h
            obtain ⟨hr, hs⟩ := h
            subst hs
            unfold groupTabByDomain
            simp only [htab]
            rw [if_neg hcond]
            simp only [hpu, hfind, hfilter]
          · rename_i sd0 sdRest hfilter
            split at h
            · exact absurd h (by simp)
            · rename_i gid s1x hcg
              simp only [Except.ok.injEq, Prod.mk.injEq] at h
              obtain ⟨hr, hs⟩ := h
              subst hs
              unfold createGroup at hcg
              rw [if_neg (by simp)] at hcg
              split at hcg
              · exact absurd hcg (by simp)
              · rename_i gid0 sA htgn
                rw [if_pos (by simp)] at hcg
                split at hcg
                · exact absurd hcg (by simp)
                · rename_i s2 hupd
                  simp only [Except.ok.injEq, Prod.mk.injEq] at hcg
                  obtain ⟨hgid, hs2⟩ := hcg
                  subst hs2
                  unfold tabsGroupNew at htgn
                  simp only [htab] at htgn
                  split at htgn
                  · simp only [Except.ok.injEq, Prod.mk.injEq] at htgn
                    obtain ⟨hgid0, hsA⟩ := htgn
                    subst hsA
                    have hget2 : tabsGet s2 tabId =
                        some { tab with groupId := Int.ofNat s.nextGroupId } := by
                      have hstep : tabsGet s2 tabId =
                          tabsGet (setGroupOfTabs s
                            (tabId :: (sd0 :: sdRest).map (fun t => t.id))
                            (Int.ofNat s.nextGroupId)) tabId := by
                        show s2.tabs.find? (fun t => t.id == tabId) = _
                        rw [tabGroupsUpdate_tabs hupd]
                        rfl
                      rw [hstep, tabsGet_setGroup, htab]
                      simp [hid]
                    unfold groupTabByDomain
                    simp only [hget2]
                    rw [if_pos (by
                      simp only [Bool.or_eq_true]
                      exact Or.inl (Or.inl (Or.inl (Or.inl
                        (ofNat_ne_groupNone s.nextGroupId)))))]
                  · exact absurd htgn (by simp)

/-- Second half of C5: when the tab is ungrouped on a normal page and some
in-window group's title equals the computed domain, the reconciler adds the
tab to that group and creates no new group. -/
theorem groupTabByDomain_reuse (s : BState) (tabId : Nat) (c : GColor) (tab : BTab)
    (g : BGroup) (pu : ParsedUrl)
    (htab : tabsGet s tabId = some tab) (hg : tab.groupId = TAB_GROUP_ID_NONE)
    (hurl : tab.url ≠ "") (hc1 : strStarts tab.url "chrome://" = false)
    (hc2 : strStarts tab.url "edge://" = false) (hc3 : tab.url ≠ "about:blank")
    (hpu : parseUrl tab.url = some pu)
    (hfind : (groupsInWindow s tab.windowId).find?
      (fun g2 => g2.title == stripWww pu.host) = some g) :
    groupTabByDomain s tabId c =
      Except.ok (some g.id, setGroupOfTabs s [tabId] (Int.ofNat g.id))
    ∧ (setGroupOfTabs s [tabId] (Int.ofNat g.id)).groups = s.groups := by
  refine ⟨?_, rfl⟩
  have hvalid : ([tabId].all (fun i => (tabsGet s i).isSome) &&
      s.groups.any (fun g2 => g2.id == g.id)) = true := by
    have hmem : g ∈ s.groups :=
      List.mem_of_mem_filter (List.mem_of_find?_eq_some hfind)
    simp only [Bool.and_eq_true, List.all_eq_true, List.any_eq_true]
    refine ⟨?_, g, hmem, by simp⟩
    intro i hi
    rw [List.mem_singleton] at hi
    subst hi
    simp [htab]
  unfold groupTabByDomain
  simp only [htab]
  rw [if_neg (by simp [hg, TAB_GROUP_ID_NONE, hurl, hc1, hc2, hc3])]
  simp only [hpu, hfind]
  unfold addTabsToGroup tabsGroupJoin
  rw [if_neg (by simp), if_pos hvalid]

/-- C5: domain-based grouping is idempotent because the reconciler reuses
same-titled groups.  First conjunct: after any successful run of
`groupTabByDomain`, running it again over the resulting unchanged state
returns `none` and leaves the state exactly as it was — no second group is
created for the tab's domain.  Second conjunct: whenever the tab is
ungrouped on an ordinary page and some group in its window already carries
a title equal to the tab's hostname stripped of `www.`, the run merely
assigns the tab to that existing group and the state's group list is
unchanged (no group is created). -/
theorem groupTabByDomain_idempotent :
    (∀ (s : BState) (tabId : Nat) (c1 c2 : GColor) (r1 : Option Nat) (s1 : BState),
      groupTabByDomain s tabId c1 = Except.ok (r1, s1) →
      groupTabByDomain s1 tabId c2 = Except.ok (none, s1)) ∧
    (∀ (s : BState) (tabId : Nat) (c : GColor) (tab : BTab) (g : BGroup) (pu : ParsedUrl),
      tabsGet s tabId = some tab → tab.groupId = TAB_GROUP_ID_NONE →
      tab.url ≠ "" → strStarts tab.url "chrome://" = false →
      strStarts tab.url "edge://" = false → tab.url ≠ "about:blank" →
      parseUrl tab.url = some pu →
      (groupsInWindow s tab.windowId).find?
        (fun g2 => g2.title == stripWww pu.host) = some g →
      groupTabByDomain s tabId c =
        Except.ok (some g.id, setGroupOfTabs s [tabId] (Int.ofNat g.id)) ∧
      (setGroupOfTabs s [tabId] (Int.ofNat g.id)).groups = s.groups) :=
  ⟨groupTabByDomain_idem, groupTabByDomain_reuse⟩

/-- Witness for C5 at a concrete state: the run reuses the existing
`a.com`-titled group without touching the group list, and a second run over
the updated state is a no-op. -/
theorem groupTabByDomain_idempotent_witness :
    (groupTabByDomain (setGroupOfTabs demoDomainState [1] (Int.ofNat 5)) 1 GColor.grey =
      Except.ok (none, setGroupOfTabs demoDomainState [1] (Int.ofNat 5))) ∧
    (groupTabByDomain demoDomainState 1 GColor.grey =
      Except.ok (some 5, setGroupOfTabs demoDomainState [1] (Int.ofNat 5))) ∧
    (setGroupOfTabs demoDomainState [1] (Int.ofNat 5)).groups = demoDomainState.groups :=
  have hreuse := groupTabByDomain_idempotent.2 demoDomainState 1 GColor.grey
    ⟨1, 7, "http://a.com/x", "T", -1⟩ ⟨5, 7, "a.com", GColor.blue, false⟩
    ⟨"http", "a.com", none, "/x", ""⟩
    (by rfl) (by rfl) (by decide) (by rfl) (by rfl) (by decide) (by rfl) (by rfl)
  ⟨groupTabByDomain_idempotent.1 demoDomainState 1 GColor.grey GColor.grey (some 5)
    (setGroupOfTabs demoDomainState [1] (Int.ofNat 5)) hreuse.1,
   hreuse.1, hreuse.2⟩

/-! ### Time-window clustering (C9) -/

/-- C9: with five ungrouped tabs of ids 1, 2, 3, 1000, 1001 and the minute
threshold 1/6 (so that the scaled cutoff separates id gaps greater than
100), the walk forms exactly the buckets `[1, 2, 3]` and `[1000, 1001]` and
both are materialized as groups; with a sixth isolated tab of id 5000 the
same two groups are created and the sixth tab stays ungrouped (size-one
buckets are discarded). -/
theorem groupByCreationTime_two_buckets :
    ((timeWalk ((1 : Rat) / 6) (⟨1, 7, "u", "t", -1⟩ : BTab) []
        (demoTimeTabs [2, 3, 1000, 1001])).map (fun b => b.map (fun t => t.id)) =
      [[1, 2, 3], [1000, 1001]])
    ∧ (groupByCreationTime (demoTimeState [1, 2, 3, 1000, 1001]) 7 ((1 : Rat) / 6)
        "12:00" (fun _ => GColor.blue) =
      Except.ok ([0, 1],
        ⟨[⟨1, 7, "u", "t", 0⟩, ⟨2, 7, "u", "t", 0⟩, ⟨3, 7, "u", "t", 0⟩,
          ⟨1000, 7, "u", "t", 1⟩, ⟨1001, 7, "u", "t", 1⟩],
         [⟨0, 7, "Group 1 (12:00)", GColor.blue, false⟩,
          ⟨1, 7, "Group 2 (12:00)", GColor.blue, false⟩], 2⟩))
    ∧ (groupByCreationTime (demoTimeState [1, 2, 3, 1000, 1001, 5000]) 7 ((1 : Rat) / 6)
        "12:00" (fun _ => GColor.blue) =
      Except.ok ([0, 1],
        ⟨[⟨1, 7, "u", "t", 0⟩, ⟨2, 7, "u", "t", 0⟩, ⟨3, 7, "u", "t", 0⟩,
          ⟨1000, 7, "u", "t", 1⟩, ⟨1001, 7, "u", "t", 1⟩, ⟨5000, 7, "u", "t", -1⟩],
         [⟨0, 7, "Group 1 (12:00)", GColor.blue, false⟩,
          ⟨1, 7, "Group 2 (12:00)", GColor.blue, false⟩], 2⟩)) := by
  have hw5 : timeWalk ((1 : Rat) / 6) (⟨1, 7, "u", "t", -1⟩ : BTab) []
      (demoTimeTabs [2, 3, 1000, 1001]) =
      [[⟨1, 7, "u", "t", -1⟩, ⟨2, 7, "u", "t", -1⟩, ⟨3, 7, "u", "t", -1⟩],
       [⟨1000, 7, "u", "t", -1⟩, ⟨1001, 7, "u", "t", -1⟩]] := by
    simp only [demoTimeTabs, List.map, timeWalk]
    norm_num
  have hw6 : timeWalk ((1 : Rat) / 6) (⟨1, 7, "u", "t", -1⟩ : BTab) []
      (demoTimeTabs [2, 3, 1000, 1001, 5000]) =
      [[⟨1, 7, "u", "t", -1⟩, ⟨2, 7, "u", "t", -1⟩, ⟨3, 7, "u", "t", -1⟩],
       [⟨1000, 7, "u", "t", -1⟩, ⟨1001, 7, "u", "t", -1⟩]] := by
    simp only [demoTimeTabs, List.map, timeWalk]
    norm_num
  refine ⟨by rw [hw5]; rfl, ?_, ?_⟩
  · have step : groupByCreationTime (demoTimeState [1, 2, 3, 1000, 1001]) 7 ((1 : Rat) / 6)
        "12:00" (fun _ => GColor.blue) =
        createTimeGroups "12:00" (fun _ => GColor.blue)
          (demoTimeState [1, 2, 3, 1000, 1001]) 0
          (timeWalk ((1 : Rat) / 6) (⟨1, 7, "u", "t", -1⟩ : BTab) []
            (demoTimeTabs [2, 3, 1000, 1001])) := rfl
    rw [step, hw5]; rfl
  · have step : groupByCreationTime (demoTimeState [1, 2, 3, 1000, 1001, 5000]) 7
        ((1 : Rat) / 6) "12:00" (fun _ => GColor.blue) =
        createTimeGroups "12:00" (fun _ => GColor.blue)
          (demoTimeState [1, 2, 3, 1000, 1001, 5000]) 0
          (timeWalk ((1 : Rat) / 6) (⟨1, 7, "u", "t", -1⟩ : BTab) []
            (demoTimeTabs [2, 3, 1000, 1001, 5000])) := rfl
    rw [step, hw6]; rfl

/-! ### The topic-suggestion parser (C6) -/

/-- Every id the id-list parse keeps belongs to the analyzed batch: ordinal
`Tab N` references are resolved inside the batch and literal ids are
filtered against the batch's id list. -/
theorem parseIdText_subset (batch : List TabDetail) (txt : String) :
    ∀ i ∈ parseIdText batch txt, i ∈ batch.map (fun t => t.id) := by
  intro i hi
  unfold parseIdText at hi
  split at hi
  · rw [List.mem_filterMap] at hi
    obtain ⟨n, _, hn⟩ := hi
    split at hn
    · rw [Option.map_eq_some'] at hn
      obtain ⟨t, ht, hid⟩ := hn
      subst hid
      exact List.mem_map_of_mem _ (List.get?_mem ht)
    · exact absurd hn (by simp)
  · rw [List.mem_filterMap] at hi
    obtain ⟨piece, _, hp⟩ := hi
    split at hp
    · exact absurd hp (by simp)
    · split at hp
      · rename_i hcond
        simp only [Option.some_inj] at hp
        subst hp
        simpa using hcond.2
      · exact absurd hp (by simp)

/-- The id list a section parse reports is already batch-filtered. -/
theorem sectionIds_subset (batch : List TabDetail) (seg n : String) (ids : List Nat)
    (h : sectionIds batch seg = some (n, ids)) :
    ∀ i ∈ ids, i ∈ batch.map (fun t => t.id) := by
  simp only [sectionIds] at h
  split at h
  · exact absurd h (by simp)
  · split at h
    · exact absurd h (by simp)
    · split at h
      · exact absurd h (by simp)
      · simp only [Option.some_inj, Prod.mk.injEq] at h
        obtain ⟨_, hids⟩ := h
        subst hids
        exact parseIdText_subset batch _

/-- A section accepted by the parser carries at least two ids and only ids
of the analyzed batch. -/
theorem parseSection_sound (batch : List TabDetail) (seg : String) (g : TabGroup)
    (h : parseSection batch seg = some g) :
    2 ≤ g.tabIds.length ∧ ∀ i ∈ g.tabIds, i ∈ batch.map (fun t => t.id) := by
  unfold parseSection at h
  split at h
  · exact absurd h (by simp)
  · rename_i p n ids hsec
    split at h
    · rename_i hlen
      simp only [Option.some_inj] at h
      subst h
      exact ⟨hlen, sectionIds_subset batch seg n ids hsec⟩
    · exact absurd h (by simp)

/-- C6: a completion splitting into two well-formed sections yields exactly
the two parsed groups; a section whose batch-filtered id list keeps fewer
than two ids yields no group (ids outside the batch are discarded before
the minimum-size check); and every id of a parsed section, and hence of an
accepted group, belongs to the analyzed batch. -/
theorem parseGroupAnalysis_wellformed :
    (∀ (text : String) (batch : List TabDetail) (t0 s1 s2 : String) (g1 g2 : TabGroup),
      splitGroups text = [t0, s1, s2] →
      parseSection batch s1 = some g1 → parseSection batch s2 = some g2 →
      parseGroupAnalysis text batch = [g1, g2]) ∧
    (∀ (batch : List TabDetail) (seg n : String) (ids : List Nat),
      sectionIds batch seg = some (n, ids) → ids.length < 2 →
      parseSection batch seg = none) ∧
    (∀ (batch : List TabDetail) (seg n : String) (ids : List Nat),
      sectionIds batch seg = some (n, ids) →
      ∀ i ∈ ids, i ∈ batch.map (fun t => t.id)) ∧
    (∀ (batch : List TabDetail) (seg : String) (g : TabGroup),
      parseSection batch seg = some g →
      2 ≤ g.tabIds.length ∧ ∀ i ∈ g.tabIds, i ∈ batch.map (fun t => t.id)) := by
  refine ⟨?_, ?_, ?_, ?_⟩
  · intro text batch t0 s1 s2 g1 g2 hsplit h1 h2
    unfold parseGroupAnalysis
    rw [hsplit]
    simp [List.filterMap_cons, h1, h2]
  · intro batch seg n ids hsec hlen
    unfold parseSection
    rw [hsec]
    show (if ids.length ≥ 2 then some (⟨n, ids⟩ : TabGroup) else none) = none
    rw [if_neg (by omega)]
  · intro batch seg n ids hsec
    exact sectionIds_subset batch seg n ids hsec
  · intro batch seg g h
    exact parseSection_sound batch seg g h

/-- Witness for C6 at a concrete completion: two sections parse into two
named groups, and a section listing the foreign id 999 next to the single
valid id 101 is dropped by the minimum-size check. -/
theorem parseGroupAnalysis_wellformed_witness :
    parseGroupAnalysis demoAnalysisText demoBatch =
      [⟨"News", [101, 102]⟩, ⟨"Work", [103, 101]⟩] ∧
    sectionIds demoBatch demoSoloSeg = some ("Solo", [101]) ∧
    parseSection demoBatch demoSoloSeg = none ∧
    (2 ≤ (⟨"News", [101, 102]⟩ : TabGroup).tabIds.length ∧
      ∀ i ∈ (⟨"News", [101, 102]⟩ : TabGroup).tabIds,
        i ∈ demoBatch.map (fun t => t.id)) :=
  ⟨parseGroupAnalysis_wellformed.1 demoAnalysisText demoBatch
      "Here are groups\n" " News\nTab IDs: 101, 102\n" " Work\nTabs: 103, 101\n"
      ⟨"News", [101, 102]⟩ ⟨"Work", [103, 101]⟩ (by rfl) (by rfl) (by rfl),
   by rfl,
   parseGroupAnalysis_wellformed.2.1 demoBatch demoSoloSeg "Solo" [101]
      (by rfl) (by decide),
   parseGroupAnalysis_wellformed.2.2.2 demoBatch " News\nTab IDs: 101, 102\n"
      ⟨"News", [101, 102]⟩ (by rfl)⟩

/-! ### LLM failure handling (C7) -/

/-- Flattening a list of empty lists gives the empty list. -/
theorem flatten_map_nil {α β : Type} (l : List α) :
    (l.map (fun _ => ([] : List β))).flatten = [] := by
  induction l with
  | nil => rfl
  | cons x xs ih => simp [ih]

/-- With a failing LLM oracle, the body of the similarity search can only
succeed with an empty id list (the no-eligible-tabs short-circuit). -/
theorem findSimilarTabsBody_fail (s : BState) (content : Nat → Except String String)
    (e : String) (tabId : Nat) (ids : List Nat)
    (h : findSimilarTabsBody s true content (fun _ => Except.error e) tabId =
      Except.ok ids) : ids = [] := by
  unfold findSimilarTabsBody at h
  rw [if_neg (by simp)] at h
  split at h
  · exact absurd h (by simp)
  · split at h
    · simp only [Except.ok.injEq] at h
      exact h.symm
    · split at h
      · exact absurd h (by simp)
      · exact absurd h (by simp)

/-- C7 counterexample: on a state with an eligible companion tab, a failing
LLM call is swallowed rather than propagated — the similarity search
returns the success value `[]`, and the topic suggester returns the success
value `[]` after skipping its failed batch.  The middle conjunct shows the
empty results are not the legitimate no-eligible-tabs short-circuit. -/
theorem llm_failure_not_propagated :
    findSimilarTabs demoSimState true (fun _ => Except.ok "")
        (fun _ => Except.error "boom") 1 = Except.ok [] ∧
    (eligibleSimilarTabs demoSimState 1).isEmpty = false ∧
    suggestTabGroups demoSimState true (fun _ => Except.ok "")
        (fun _ => Except.error "boom") [1, 2] = Except.ok [] :=
  ⟨rfl, rfl, rfl⟩

/-- C7 as amended: LLM-call failures are swallowed, not propagated.  The
similarity search never returns an error at all; with a failing LLM oracle
it returns the success value `[]`; the topic suggester with a failing LLM
oracle skips every batch and succeeds with `[]`; only pre-call validation
failures, such as the LLM being unconfigured, reach the caller as errors. -/
theorem llm_failure_swallowed :
    (∀ (s : BState) (cfg : Bool) (content : Nat → Except String String)
       (llm : String → Except String String) (tabId : Nat), ∃ ids,
      findSimilarTabs s cfg content llm tabId = Except.ok ids) ∧
    (∀ (s : BState) (content : Nat → Except String String) (e : String) (tabId : Nat),
      findSimilarTabs s true content (fun _ => Except.error e) tabId =
        Except.ok []) ∧
    (∀ (s : BState) (content : Nat → Except String String) (e : String)
       (tabIds : List Nat) (d0 : TabDetail) (dRest : List TabDetail),
      tabIds.filterMap (tabDetailOf s content) = d0 :: dRest →
      suggestTabGroups s true content (fun _ => Except.error e) tabIds =
        Except.ok []) ∧
    (∀ (s : BState) (content : Nat → Except String String)
       (llm : String → Except String String) (tabIds : List Nat),
      suggestTabGroups s false content llm tabIds =
        Except.error "LLM is not configured") := by
  refine ⟨?_, ?_, ?_, ?_⟩
  · intro s cfg content llm tabId
    cases hb : findSimilarTabsBody s cfg content llm tabId with
    | error e => exact ⟨[], by unfold findSimilarTabs; rw [hb]⟩
    | ok ids => exact ⟨ids, by unfold findSimilarTabs; rw [hb]⟩
  · intro s content e tabId
    cases hb : findSimilarTabsBody s true content (fun _ => Except.error e) tabId with
    | error e2 => unfold findSimilarTabs; rw [hb]
    | ok ids =>
      unfold findSimilarTabs
      rw [hb, findSimilarTabsBody_fail s content e tabId ids hb]
  · intro s content e tabIds d0 dRest hdet
    unfold suggestTabGroups
    rw [if_neg (by simp), hdet]
    exact congrArg Except.ok (flatten_map_nil _)
  · intro s content llm tabIds
    rfl

/-- Witness for C7 (amended) at the concrete two-tab state: the failing LLM
oracle yields the success value `[]` from both strategies, and the
unconfigured service yields the configuration error. -/
theorem llm_failure_swallowed_witness :
    findSimilarTabs demoSimState true (fun _ => Except.ok "")
        (fun _ => Except.error "x") 1 = Except.ok [] ∧
    suggestTabGroups demoSimState true (fun _ => Except.ok "")
        (fun _ => Except.error "x") [1, 2] = Except.ok [] ∧
    suggestTabGroups demoSimState false (fun _ => Except.ok "")
        (fun _ => Except.error "x") [1, 2] =
      Except.error "LLM is not configured" :=
  ⟨llm_failure_swallowed.2.1 demoSimState (fun _ => Except.ok "") "x" 1,
   llm_failure_swallowed.2.2.1 demoSimState (fun _ => Except.ok "") "x" [1, 2]
     ⟨1, "A", "http://a.com/", ""⟩ [⟨2, "B", "http://b.com/", ""⟩] (by rfl),
   llm_failure_swallowed.2.2.2 demoSimState (fun _ => Except.ok "")
     (fun _ => Except.error "x") [1, 2]⟩

/-! ### Similarity clustering keeps only eligible ids (C8) -/

/-- A fresh native group carries the state's next group id and regroups
exactly the listed tabs. -/
theorem tabsGroupNew_tabs (s : BState) (tabIds : List Nat) (gid : Nat) (s1 : BState)
    (h : tabsGroupNew s tabIds = Except.ok (gid, s1)) :
    gid = s.nextGroupId ∧
      s1.tabs = (setGroupOfTabs s tabIds (Int.ofNat s.nextGroupId)).tabs := by
  unfold tabsGroupNew at h
  split at h
  · exact absurd h (by simp)
  · split at h
    · exact absurd h (by simp)
    · split at h
      · simp only [Except.ok.injEq, Prod.mk.injEq] at h
        obtain ⟨hg, hs⟩ := h
        subst hs
        exact ⟨hg.symm, rfl⟩
      · exact absurd h (by simp)

/-- Every listed tab present before a `createGroup` call is found afterwards
carrying the returned group id. -/
theorem createGroup_member (s : BState) (tabIds : List Nat) (title : Option String)
    (color : Option GColor) (gid : Nat) (s1 : BState) (i : Nat) (t : BTab)
    (h : createGroup s tabIds title color = Except.ok (gid, s1))
    (hmem : i ∈ tabIds) (ht : tabsGet s i = some t) :
    tabsGet s1 i = some { t with groupId := Int.ofNat gid } := by
  have hid : t.id = i := by simpa using List.find?_some ht
  unfold createGroup at h
  split at h
  · exact absurd h (by simp)
  · split at h
    · exact absurd h (by simp)
    · rename_i p gid0 sA hnew
      obtain ⟨hg0, htabs⟩ := tabsGroupNew_tabs s tabIds gid0 sA hnew
      subst hg0
      have hA : tabsGet sA i = some { t with groupId := Int.ofNat s.nextGroupId } := by
        have hstep : tabsGet sA i =
            tabsGet (setGroupOfTabs s tabIds (Int.ofNat s.nextGroupId)) i := by
          unfold tabsGet
          rw [htabs]
        rw [hstep, tabsGet_setGroup, ht]
        simp [hid, hmem]
      split at h
      · split at h
        · exact absurd h (by simp)
        · rename_i s2 hupd
          simp only [Except.ok.injEq, Prod.mk.injEq] at h
          obtain ⟨hgid, hs1⟩ := h
          subst hgid
          subst hs1
          have hstep2 : tabsGet s2 i = tabsGet sA i := by
            unfold tabsGet
            rw [tabGroupsUpdate_tabs hupd]
          rw [hstep2, hA]
      · simp only [Except.ok.injEq, Prod.mk.injEq] at h
        obtain ⟨hgid, hs1⟩ := h
        subst hgid
        subst hs1
        exact hA

/-- The body of the similarity search only reports ids of eligible tabs:
its final filter intersects the parsed ids with the eligible set. -/
theorem findSimilarTabsBody_subset (s : BState) (cfg : Bool)
    (content : Nat → Except String String) (llm : String → Except String String)
    (tabId : Nat) (ids : List Nat)
    (h : findSimilarTabsBody s cfg content llm tabId = Except.ok ids) :
    ∀ i ∈ ids, i ∈ (eligibleSimilarTabs s tabId).map (fun t => t.id) := by
  unfold findSimilarTabsBody at h
  split at h
  · exact absurd h (by simp)
  · split at h
    · exact absurd h (by simp)
    · split at h
      · simp only [Except.ok.injEq] at h
        subst h
        intro i hi
        simp at hi
      · split at h
        · exact absurd h (by simp)
        · split at h
          · exact absurd h (by simp)
          · split at h
            · simp only [Except.ok.injEq] at h
              subst h
              intro i hi
              simp at hi
            · split at h
              · simp only [Except.ok.injEq] at h
                subst h
                intro i hi
                simp at hi
              · simp only [Except.ok.injEq] at h
                subst h
                intro i hi
                have hp := List.of_mem_filter hi
                rw [List.any_eq_true] at hp
                obtain ⟨t, ht, hti⟩ := hp
                simp only [beq_iff_eq] at hti
                subst hti
                exact List.mem_map_of_mem _ ht

/-- When similarity clustering creates a group, the reference tab itself is
re-found in the updated state carrying the new group's id. -/
theorem groupSimilarTabs_reference (s : BState) (cfg : Bool)
    (content : Nat → Except String String) (llm : String → Except String String)
    (referenceTabId : Nat) (randColor : GColor) (gid : Nat) (s1 : BState)
    (h : groupSimilarTabs s cfg content llm referenceTabId randColor =
      Except.ok (some gid, s1)) :
    ∃ t, tabsGet s referenceTabId = some t ∧
      tabsGet s1 referenceTabId = some { t with groupId := Int.ofNat gid } := by
  unfold groupSimilarTabs at h
  split at h
  · exact absurd h (by simp)
  · rename_i tab htab
    split at h
    · exact absurd h (by simp)
    · split at h
      · exact absurd h (by simp)
      · rename_i ids0 hids
        split at h
        · exact absurd h (by simp)
        · exact absurd h (by simp)
        · rename_i i0 i1 iRest heq
          split at h
          · exact absurd h (by simp)
          · split at h
            · exact absurd h (by simp)
            · rename_i p gid0 sC hcg
              simp only [Except.ok.injEq, Prod.mk.injEq, Option.some_inj] at h
              obtain ⟨hgid, hs1⟩ := h
              subst hgid
              subst hs1
              refine ⟨tab, htab, ?_⟩
              have hidtab : tab.id = referenceTabId := by
                simpa using List.find?_some htab
              have hmem : referenceTabId ∈ i0 :: i1 :: iRest := by
                rw [show i0 :: i1 :: iRest =
                    (if ids0.contains referenceTabId then ids0
                     else referenceTabId :: ids0) from heq.symm]
                by_cases hc : ids0.contains referenceTabId = true
                · rw [if_pos hc]
                  simpa using hc
                · rw [if_neg hc]
                  exact List.mem_cons_self referenceTabId ids0
              exact createGroup_member s (i0 :: i1 :: iRest) _ _ gid0 sC
                referenceTabId tab hcg hmem htab

/-- C8: the similarity search only ever reports ids of the known eligible
set (ungrouped, non-internal tabs of the reference tab's window, the
reference tab excluded) — hallucinated ids parsed from the reply are
discarded — and when the clustering operation creates a group, the
reference tab itself ends up in it. -/
theorem findSimilarTabs_eligible :
    (∀ (s : BState) (cfg : Bool) (content : Nat → Except String String)
       (llm : String → Except String String) (tabId : Nat) (ids : List Nat),
      findSimilarTabs s cfg content llm tabId = Except.ok ids →
      ∀ i ∈ ids, i ∈ (eligibleSimilarTabs s tabId).map (fun t => t.id)) ∧
    (∀ (s : BState) (cfg : Bool) (content : Nat → Except String String)
       (llm : String → Except String String) (referenceTabId : Nat)
       (randColor : GColor) (gid : Nat) (s1 : BState),
      groupSimilarTabs s cfg content llm referenceTabId randColor =
        Except.ok (some gid, s1) →
      ∃ t, tabsGet s referenceTabId = some t ∧
        tabsGet s1 referenceTabId = some { t with groupId := Int.ofNat gid }) := by
  constructor
  · intro s cfg content llm tabId ids h
    cases hb : findSimilarTabsBody s cfg content llm tabId with
    | error e =>
      unfold findSimilarTabs at h
      rw [hb] at h
      simp only [Except.ok.injEq] at h
      subst h
      intro i hi
      simp at hi
    | ok ids2 =>
      unfold findSimilarTabs at h
      rw [hb] at h
      simp only [Except.ok.injEq] at h
      subst h
      exact findSimilarTabsBody_subset s cfg content llm tabId ids2 hb
  · intro s cfg content llm referenceTabId randColor gid s1 h
    exact groupSimilarTabs_reference s cfg content llm referenceTabId randColor gid s1 h

/-- Witness for C8 at the concrete two-tab state: the reply `2, 99` is
trimmed to the eligible id `2`, and the created group re-finds the
reference tab under the new group id `0`. -/
theorem findSimilarTabs_eligible_witness :
    (∀ i ∈ [2], i ∈ (eligibleSimilarTabs demoSimState 1).map (fun t => t.id)) ∧
    (∃ t, tabsGet demoSimState 1 = some t ∧
      tabsGet (⟨[⟨1, 7, "http://a.com/", "A", 0⟩, ⟨2, 7, "http://b.com/", "B", 0⟩],
        [⟨0, 7, "a.com", GColor.blue, false⟩], 1⟩ : BState) 1 =
        some { t with groupId := Int.ofNat 0 }) :=
  ⟨findSimilarTabs_eligible.1 demoSimState true (fun _ => Except.ok "") demoLlm 1 [2]
      (by rfl),
   findSimilarTabs_eligible.2 demoSimState true (fun _ => Except.ok "") demoLlm 1
      GColor.blue 0
      (⟨[⟨1, 7, "http://a.com/", "A", 0⟩, ⟨2, 7, "http://b.com/", "B", 0⟩],
        [⟨0, 7, "a.com", GColor.blue, false⟩], 1⟩ : BState) (by rfl)⟩

end PsiTabs
